import Mathlib

/-!
# Verification of the camtrap-dp record-serialization modules

Shallow embedding of the `camtrapdp` Python package: the `Deployment`,
`Media` and `Observation` record kinds (plain dataclasses over dynamic
values) and their four converters `from_csv`, `to_csv`, `to_pandas`,
`from_pandas`, together with models of the library behaviour they invoke:

* the `csv` module (`DictReader` / `DictWriter`, default dialect:
  delimiter `,`, quote char `"`, doubled quotes, minimal quoting,
  line terminator CRLF),
* text-mode file I/O on a POSIX system (no translation on write,
  universal-newline translation on read, `utf-8-sig` BOM stripping),
* Python call/kwargs semantics for the dataclass constructors
  (`TypeError` when a keyword is missing, unexpected, or not a string),
* the pandas `DataFrame(list-of-dicts)` / `iterrows` bridge, including
  the numeric-column coercion that turns `int` into `float` and `None`
  into `NaN` when a column mixes numbers with missing values.

Dynamic (Python) values are modelled by `PyVal`; floats are carried with
an integer payload because the only floats these modules ever *create*
are pandas' widenings of ints, plus `NaN`.
-/

deriving instance DecidableEq for Except

/-- A dynamic Python value as it can appear in a record field of this
package: `None`, a string, a bool, an int, a float with integral value
(the only floats produced inside the package, by pandas int-widening),
or the float `NaN` (produced by pandas for missing numeric data). -/
inductive PyVal where
  | vnone : PyVal
  | vstr (s : String) : PyVal
  | vbool (b : Bool) : PyVal
  | vint (n : Int) : PyVal
  | vfloat (n : Int) : PyVal
  | vnan : PyVal
deriving DecidableEq, Repr

/-- The kinds of exception relevant to these modules.  `formatError`
is the error kind named by the specification; the code itself never
raises it (nothing named `FormatError` exists in the source). -/
inductive PyError where
  | typeError : PyError
  | valueError : PyError
  | formatError : PyError
  | notImplementedError : PyError
deriving DecidableEq, Repr

/-- Python `==` on the modelled values: `None` equals only `None`,
numbers compare by value across `int`/`float`/`bool` (`True == 1`),
`NaN` is unequal to everything including itself. -/
def pyEq : PyVal → PyVal → Bool
  | PyVal.vnone, PyVal.vnone => true
  | PyVal.vstr a, PyVal.vstr b => a = b
  | PyVal.vbool a, PyVal.vbool b => a = b
  | PyVal.vbool a, PyVal.vint b => (if a then (1 : Int) else 0) = b
  | PyVal.vint a, PyVal.vbool b => a = (if b then (1 : Int) else 0)
  | PyVal.vbool a, PyVal.vfloat b => (if a then (1 : Int) else 0) = b
  | PyVal.vfloat a, PyVal.vbool b => a = (if b then (1 : Int) else 0)
  | PyVal.vint a, PyVal.vint b => a = b
  | PyVal.vint a, PyVal.vfloat b => a = b
  | PyVal.vfloat a, PyVal.vint b => a = b
  | PyVal.vfloat a, PyVal.vfloat b => a = b
  | _, _ => false

/-- `str(v)` as applied by `csv.writer` to a non-`None` cell value:
strings pass through, bools render capitalized (`"True"`/`"False"`),
ints and floats render decimally. -/
def pyStr : PyVal → String
  | PyVal.vnone => "None"
  | PyVal.vstr s => s
  | PyVal.vbool b => if b then "True" else "False"
  | PyVal.vint n => toString n
  | PyVal.vfloat n => toString n ++ ".0"
  | PyVal.vnan => "nan"

/-- The cell text `csv.writer` emits for a value: `None` becomes the
empty string, everything else is `str(v)`. -/
def serializeCell (v : PyVal) : String :=
  match v with
  | PyVal.vnone => ""
  | v => pyStr v

/-- Dictionary lookup used when the surrounding code has already
checked that the key is present (Python would raise `KeyError`
otherwise; the default is never observable below). -/
def lookupD (d : List (String × PyVal)) (k : String) : PyVal :=
  (d.lookup k).getD PyVal.vnone

/-- `exceptMapM f l` models a Python list comprehension `[f(x) for x in l]`
in which `f` may raise: the first exception aborts the whole list. -/
def exceptMapM (f : α → Except PyError β) : List α → Except PyError (List β)
  | [] => Except.ok []
  | a :: as =>
    match f a with
    | Except.error e => Except.error e
    | Except.ok b =>
      match exceptMapM f as with
      | Except.error e => Except.error e
      | Except.ok bs => Except.ok (b :: bs)

/-! ## The `csv` module, writing side -/

/-- Minimal quoting: a field is quoted iff it contains the delimiter,
the quote char, or a character of the CRLF line terminator. -/
def needsQuote (s : List Char) : Bool :=
  s.any (fun c => c = ',' || c = '"' || c = '\r' || c = '\n')

/-- Double every quote char (the `doublequote=True` escaping). -/
def dquote : List Char → List Char
  | [] => []
  | c :: cs => if c = '"' then '"' :: '"' :: dquote cs else c :: dquote cs

/-- One emitted field: quoted with doubled quotes when `needsQuote`,
verbatim otherwise. -/
def escapeChars (s : List Char) : List Char :=
  if needsQuote s then '"' :: (dquote s ++ ['"']) else s

/-- Join already-escaped fields with the `,` delimiter. -/
def joinComma : List (List Char) → List Char
  | [] => []
  | [x] => x
  | x :: y :: ys => x ++ ',' :: joinComma (y :: ys)

/-- One CSV record as written by `csv.writer`: fields escaped and
comma-joined, terminated by CRLF.  A record consisting of a single
empty field is written as `""` so that it is not mistaken for a blank
line on re-reading (CPython special case). -/
def encodeRow (cells : List String) : List Char :=
  if cells = [""] then ['"', '"', '\r', '\n']
  else joinComma (cells.map (fun s => escapeChars s.data)) ++ ['\r', '\n']

/-- `DictWriter`: the cell texts of one row, in `fieldnames` order;
a missing key yields the `restval` default `""`, `None` yields `""`. -/
def dictWriterCells (names : List String) (d : List (String × PyVal)) : List String :=
  names.map (fun n =>
    match d.lookup n with
    | some v => serializeCell v
    | none => "")

/-- `DictWriter.writeheader` followed by `writerows`, written to a file
opened in text mode on POSIX (no output translation): header row of the
field names, then one row per dictionary, in order. -/
def writeCSVtext (names : List String) (dicts : List (List (String × PyVal))) : String :=
  String.mk (encodeRow names ++ (dicts.map (fun d => encodeRow (dictWriterCells names d))).flatten)

/-! ## The `csv` module, reading side -/

/-- `utf-8-sig` decoding: strip one leading byte-order mark if present. -/
def stripBOM (cs : List Char) : List Char :=
  match cs with
  | c :: rest => if c = '\uFEFF' then rest else cs
  | [] => []

/-- Universal-newline translation performed by text-mode reading
(`newline=None`): each CRLF pair and each lone CR becomes LF.  It
applies to the raw character stream, including inside quoted fields. -/
def univNewlines : List Char → List Char
  | [] => []
  | '\r' :: '\n' :: cs => '\n' :: univNewlines cs
  | '\r' :: cs => '\n' :: univNewlines cs
  | c :: cs => c :: univNewlines cs

/-- Scan an unquoted field (or the continuation after a closing quote):
collect characters up to the delimiter or the end of the line, and
report the separator reached, with the remaining input after it. -/
def scanU : List Char → List Char × Option Char × List Char
  | [] => ([], none, [])
  | c :: cs =>
    if c = ',' || c = '\n' then ([], some c, cs)
    else
      let u := scanU cs
      (c :: u.1, u.2.1, u.2.2)

/-- Scan the inside of a quoted field, starting just after the opening
quote: a doubled quote stands for one literal quote, a single quote
closes the field. -/
def parseFieldQ : List Char → List Char × List Char
  | [] => ([], [])
  | c :: cs =>
    if c = '"' then
      match cs with
      | c2 :: cs2 =>
        if c2 = '"' then
          let q := parseFieldQ cs2
          ('"' :: q.1, q.2)
        else ([], cs)
      | [] => ([], [])
    else
      let q := parseFieldQ cs
      (c :: q.1, q.2)

/-- Parse one field of the default dialect: a leading quote opens a
quoted field (any trailing unquoted characters are appended), anything
else is an unquoted field. -/
def parseField (cs : List Char) : List Char × Option Char × List Char :=
  match cs with
  | [] => ([], none, [])
  | c :: cs' =>
    if c = '"' then
      let q := parseFieldQ cs'
      let u := scanU q.2
      (q.1 ++ u.1, u.2.1, u.2.2)
    else scanU (c :: cs')

theorem scanU_rest_le (cs : List Char) : (scanU cs).2.2.length ≤ cs.length := by
  induction cs with
  | nil => simp [scanU]
  | cons c cs ih =>
    simp only [scanU]
    split
    · simp
    · simpa using Nat.le_succ_of_le ih

theorem scanU_some_lt (cs : List Char) (c : Char) (r : List Char)
    (h : (scanU cs).2 = (some c, r)) : r.length < cs.length := by
  induction cs with
  | nil => simp [scanU] at h
  | cons a cs ih =>
    simp only [scanU] at h
    split at h
    · have h2 : r = cs := by
        have := congrArg Prod.snd h
        simpa using this.symm
      subst h2
      simp
    · have h2 : (scanU cs).2 = (some c, r) := by
        have h1 : (scanU cs).2.1 = some c := by
          have := congrArg Prod.fst h
          simpa using this
        have hr : (scanU cs).2.2 = r := by
          have := congrArg Prod.snd h
          simpa using this
        rw [← h1, ← hr]
      exact Nat.lt_succ_of_lt (ih h2)

theorem parseFieldQ_rest_le (cs : List Char) : (parseFieldQ cs).2.length ≤ cs.length := by
  generalize hn : cs.length = n
  induction n using Nat.strong_induction_on generalizing cs with
  | _ n ih =>
    match cs, hn with
    | [], hn => simp [parseFieldQ]
    | c :: cs', hn =>
      rw [parseFieldQ.eq_def]
      simp only
      by_cases hc : c = '"'
      · simp only [if_pos hc]
        match cs' with
        | [] => exact Nat.zero_le _
        | c2 :: cs2 =>
          by_cases hc2 : c2 = '"'
          · simp only [if_pos hc2]
            have hlt : cs2.length < n := by simp at hn; omega
            have := ih cs2.length hlt cs2 rfl
            simp at hn ⊢
            omega
          · simp only [if_neg hc2]
            simp at hn ⊢
            omega
      · simp only [if_neg hc]
        have hlt : cs'.length < n := by simp at hn; omega
        have := ih cs'.length hlt cs' rfl
        simp at hn ⊢
        omega

theorem parseField_some_lt (cs : List Char) (c : Char) (r : List Char)
    (h : (parseField cs).2 = (some c, r)) : r.length < cs.length := by
  match cs with
  | [] => simp [parseField] at h
  | a :: cs' =>
    simp only [parseField] at h
    split at h
    · have hq := parseFieldQ_rest_le cs'
      have hs : (scanU (parseFieldQ cs').2).2 = (some c, r) := by
        have h1 := congrArg Prod.fst h
        have h2 := congrArg Prod.snd h
        simp at h1 h2
        rw [← h1, ← h2]
      have hu := scanU_some_lt (parseFieldQ cs').2 c r hs
      simp only [List.length_cons]
      omega
    · exact scanU_some_lt (a :: cs') c r h

theorem parseField_none_rest_le (cs : List Char) :
    (parseField cs).2.2.length ≤ cs.length := by
  match cs with
  | [] => simp [parseField]
  | a :: cs' =>
    simp only [parseField]
    split
    · have hq := parseFieldQ_rest_le cs'
      have hu := scanU_rest_le (parseFieldQ cs').2
      simp only [List.length_cons]
      omega
    · have := scanU_rest_le (a :: cs')
      exact this

theorem scanU_none_nil (cs : List Char) (h : (scanU cs).2.1 = none) :
    (scanU cs).2.2 = [] := by
  induction cs with
  | nil => simp [scanU]
  | cons c cs ih =>
    simp only [scanU] at h ⊢
    split at h
    next hc => simp at h
    next hc =>
      rw [if_neg hc]
      exact ih h

theorem parseField_none_nil (cs : List Char) (h : (parseField cs).2.1 = none) :
    (parseField cs).2.2 = [] := by
  match cs with
  | [] => simp [parseField]
  | a :: cs' =>
    simp only [parseField] at h ⊢
    split at h
    next ha =>
      rw [if_pos ha]
      exact scanU_none_nil (parseFieldQ cs').2 h
    next ha =>
      rw [if_neg ha]
      exact scanU_none_nil (a :: cs') h

/-- Parse one CSV record: fields separated by the delimiter, ended by
the (already translated) LF line end or by end of input; returns the
record and the remaining input.  Structured with explicit fuel so that
it evaluates by kernel reduction; each delimiter consumed strictly
shrinks the input, so any fuel above the input length is enough. -/
def parseRowFuel : Nat → List Char → List String × List Char
  | 0, cs => ([], cs)
  | fuel + 1, cs =>
    match parseField cs with
    | (f, some c, r2) =>
      if c = ',' then
        let q := parseRowFuel fuel r2
        (String.mk f :: q.1, q.2)
      else (String.mk f :: [], r2)
    | (f, none, r2) => (String.mk f :: [], r2)

/-- Parse one CSV record (at this bound the fuel never runs out). -/
def parseRow (cs : List Char) : List String × List Char :=
  parseRowFuel (cs.length + 1) cs

theorem parseRowFuel_congr (n : Nat) : ∀ (m : Nat) (cs : List Char),
    cs.length < n → cs.length < m → parseRowFuel n cs = parseRowFuel m cs := by
  induction n using Nat.strong_induction_on with
  | _ n ih =>
    intro m cs hn hm
    rcases n with _ | n'
    · omega
    rcases m with _ | m'
    · omega
    simp only [parseRowFuel]
    match hpf : parseField cs with
    | (f, some c, r2) =>
      simp only
      split
      · have hlt : r2.length < cs.length := parseField_some_lt cs c r2 (by rw [hpf])
        rw [ih n' (by omega) m' r2 (by omega) (by omega)]
      · rfl
    | (f, none, r2) => rfl

theorem parseRow_unfold (cs : List Char) :
    parseRow cs =
      match parseField cs with
      | (f, some c, r2) =>
        if c = ',' then (String.mk f :: (parseRow r2).1, (parseRow r2).2)
        else (String.mk f :: [], r2)
      | (f, none, r2) => (String.mk f :: [], r2) := by
  conv_lhs => rw [parseRow]
  simp only [parseRowFuel]
  match hpf : parseField cs with
  | (f, some c, r2) =>
    simp only
    split
    · have hlt : r2.length < cs.length := parseField_some_lt cs c r2 (by rw [hpf])
      rw [parseRowFuel_congr cs.length (r2.length + 1) r2 (by omega) (by omega)]
      rfl
    · rfl
  | (f, none, r2) => rfl

theorem parseRowFuel_rest_le (n : Nat) : ∀ cs : List Char,
    (parseRowFuel n cs).2.length ≤ cs.length := by
  induction n with
  | zero => intro cs; simp [parseRowFuel]
  | succ n ih =>
    intro cs
    simp only [parseRowFuel]
    match hpf : parseField cs with
    | (f, some c, r2) =>
      have hlt : r2.length < cs.length := parseField_some_lt cs c r2 (by rw [hpf])
      simp only
      split
      · have := ih r2
        simp only
        omega
      · simpa using hlt.le
    | (f, none, r2) =>
      have hle : (parseField cs).2.2.length ≤ cs.length := parseField_none_rest_le cs
      rw [hpf] at hle
      simpa using hle

theorem parseRow_rest_le (cs : List Char) : (parseRow cs).2.length ≤ cs.length :=
  parseRowFuel_rest_le _ cs

theorem parseRow_rest_lt (cs : List Char) (h : cs ≠ []) :
    (parseRow cs).2.length < cs.length := by
  rw [parseRow_unfold]
  split
  next f c r2 hpf =>
    have hlt : r2.length < cs.length := parseField_some_lt cs c r2 (by rw [hpf])
    split
    · have := parseRow_rest_le r2
      simp only
      omega
    · simpa using hlt
  next f r2 hpf =>
    have h1 : (parseField cs).2.1 = none := by rw [hpf]
    have h2 := parseField_none_nil cs h1
    rw [hpf] at h2
    simp only at h2
    subst h2
    simp only [List.length_nil]
    exact List.length_pos.mpr h

/-- Split the translated character stream into CSV records, as
`csv.reader` does when iterating a text file: a blank line produces an
empty record, end of input after a final newline produces nothing.
Fuelled like `parseRowFuel`; every record consumes at least one
character. -/
def parseCSVFuel : Nat → List Char → List (List String)
  | 0, _ => []
  | fuel + 1, cs =>
    match cs with
    | [] => []
    | c :: cs' =>
      if c = '\n' then ([] : List String) :: parseCSVFuel fuel cs'
      else (parseRow (c :: cs')).1 :: parseCSVFuel fuel (parseRow (c :: cs')).2

/-- Split the stream into records (the fuel never runs out). -/
def parseCSV (cs : List Char) : List (List String) :=
  parseCSVFuel (cs.length + 1) cs

theorem parseCSVFuel_congr (n : Nat) : ∀ (m : Nat) (cs : List Char),
    cs.length < n → cs.length < m → parseCSVFuel n cs = parseCSVFuel m cs := by
  induction n using Nat.strong_induction_on with
  | _ n ih =>
    intro m cs hn hm
    rcases n with _ | n'
    · omega
    rcases m with _ | m'
    · omega
    simp only [parseCSVFuel]
    match cs with
    | [] => rfl
    | c :: cs' =>
      simp only [List.length_cons] at hn hm
      simp only
      split
      · rw [ih n' (by omega) m' cs' (by omega) (by omega)]
      · have hlt := parseRow_rest_lt (c :: cs') (by simp)
        simp only [List.length_cons] at hlt
        rw [ih n' (by omega) m' (parseRow (c :: cs')).2 (by omega) (by omega)]

theorem parseCSV_unfold (cs : List Char) :
    parseCSV cs =
      match cs with
      | [] => []
      | c :: cs' =>
        if c = '\n' then ([] : List String) :: parseCSV cs'
        else (parseRow (c :: cs')).1 :: parseCSV (parseRow (c :: cs')).2 := by
  conv_lhs => rw [parseCSV]
  simp only [parseCSVFuel, List.length_cons]
  match cs with
  | [] => rfl
  | c :: cs' =>
    simp only [List.length_cons]
    split
    · rfl
    · have hlt := parseRow_rest_lt (c :: cs') (by simp)
      simp only [List.length_cons] at hlt
      rw [parseCSVFuel_congr (cs'.length + 1) ((parseRow (c :: cs')).2.length + 1)
        (parseRow (c :: cs')).2 (by omega) (by omega)]
      rfl

/-- `DictReader`: pair the header names with a row of raw cell texts;
short rows are padded with the `restval` default `None`. -/
def mkRowDict (header : List String) (row : List String) : List (String × PyVal) :=
  List.zip header (row.map PyVal.vstr ++ List.replicate (header.length - row.length) PyVal.vnone)

/-- One data row turned into one record: a row longer than the header
puts its extra cells under the non-string `restkey` `None`, which the
`Kind(**row)` call rejects with a `TypeError`; otherwise the padded
dictionary is passed to the dataclass constructor. -/
def readRow (ctor : List (String × PyVal) → Except PyError ρ)
    (header : List String) (row : List String) : Except PyError ρ :=
  if row.length > header.length then Except.error PyError.typeError
  else ctor (mkRowDict header row)

/-- The body shared by the three `from_csv` methods: decode `utf-8-sig`
text with universal newlines, iterate `DictReader` rows (the first
record is the header, blank lines are skipped), and build one record
per data row.  An empty file yields no rows and hence no records. -/
def readCSVtext (ctor : List (String × PyVal) → Except PyError ρ) (text : String) :
    Except PyError (List ρ) :=
  match parseCSV (univNewlines (stripBOM text.data)) with
  | [] => Except.ok []
  | header :: rows => exceptMapM (readRow ctor header) (rows.filter (fun r => !r.isEmpty))

/-! ## The pandas bridge -/

/-- A pandas `DataFrame` as visible to this package: named columns and
row-major cell data. -/
structure DataFrame where
  cols : List String
  rows : List (List PyVal)
deriving DecidableEq, Repr

/-- Values pandas treats as `int` during column dtype inference. -/
def isIntVal : PyVal → Bool
  | PyVal.vint _ => true
  | _ => false

/-- Values admissible in a numeric (float64) column: ints, floats,
`NaN`, and missing (`None`). -/
def isNumericOrNone : PyVal → Bool
  | PyVal.vint _ => true
  | PyVal.vfloat _ => true
  | PyVal.vnan => true
  | PyVal.vnone => true
  | _ => false

/-- Values that are actual numbers (so their presence forces a float64
column when mixed with `None`). -/
def isRealNum : PyVal → Bool
  | PyVal.vint _ => true
  | PyVal.vfloat _ => true
  | PyVal.vnan => true
  | _ => false

/-- The widening applied to each cell of a column stored as float64:
ints become floats, missing values become `NaN`. -/
def coerceNum : PyVal → PyVal
  | PyVal.vint n => PyVal.vfloat n
  | PyVal.vnone => PyVal.vnan
  | v => v

/-- Whether `DataFrame(list-of-dicts)` stores column `i` as float64:
the column is not all-`int` (which would stay int64), every value is
numeric or missing, and at least one value is an actual number (an
all-`None` column stays `object` and keeps `None`).  Everything else
is stored as `object` dtype and kept verbatim. -/
def colFloat64 (rows : List (List PyVal)) (i : Nat) : Bool :=
  let vals := rows.map (fun r => r.getD i PyVal.vnan)
  !(vals.all isIntVal) && vals.all isNumericOrNone && vals.any isRealNum

/-- Apply per-column coercion flags to one row. -/
def applyFlags : List Bool → List PyVal → List PyVal
  | f :: fs, v :: vs => (if f then coerceNum v else v) :: applyFlags fs vs
  | _, vs => vs

/-- The cell data as stored by `DataFrame(list-of-dicts)`: float64
columns are widened cell-wise, all other columns kept as-is. -/
def coerceRows (n : Nat) (rows : List (List PyVal)) : List (List PyVal) :=
  rows.map (applyFlags ((List.range n).map (colFloat64 rows)))

/-- `DataFrame([asdict(r) for r in records])`: the columns are the
field names (none for an empty record list), the data is the records'
cells after pandas dtype coercion. -/
def dfOfRecords (names : List String) (rows : List (List PyVal)) : DataFrame :=
  { cols := if rows.isEmpty then [] else names
    rows := coerceRows names.length rows }

/-- `[Kind(**row) for index, row in dataframe.iterrows()]`: each row is
a Series keyed by the column names, passed as keyword arguments to the
dataclass constructor. -/
def dfToRecords (ctor : List (String × PyVal) → Except PyError ρ) (df : DataFrame) :
    Except PyError (List ρ) :=
  exceptMapM (fun row => ctor (List.zip df.cols row)) df.rows

/-- The keyword-matching test performed by a `Kind(**row)` call: the
call succeeds exactly when the keyword set equals the parameter set
(no unexpected keyword, no missing parameter). -/
def sameKeysB (keys names : List String) : Bool :=
  keys.all (fun k => names.contains k) && names.all (fun k => keys.contains k)

/-! ## The `Deployment` record kind (`camtrapdp/deployments.py`)

A `@dataclass` stores whatever value each keyword argument carried;
Python does not enforce the type annotations, so every field is a
`PyVal`.  The field order below is the source declaration order, which
is what `Deployment.__dataclass_fields__.keys()` yields. -/

structure Deployment where
  deploymentID : PyVal
  locationID : PyVal
  locationName : PyVal
  latitude : PyVal
  longitude : PyVal
  coordinateUncertainty : PyVal
  deploymentStart : PyVal
  deploymentEnd : PyVal
  setupBy : PyVal
  cameraID : PyVal
  cameraModel : PyVal
  cameraDelay : PyVal
  cameraHeight : PyVal
  cameraDepth : PyVal
  cameraTilt : PyVal
  cameraHeading : PyVal
  detectionDistance : PyVal
  timestampIssues : PyVal
  baitUse : PyVal
  featureType : PyVal
  habitat : PyVal
  deploymentGroups : PyVal
  deploymentTags : PyVal
  deploymentComments : PyVal
deriving DecidableEq, Repr

namespace Deployment

/-- `Deployment.__dataclass_fields__.keys()`, in declaration order. -/
def fieldNames : List String :=
  ["deploymentID", "locationID", "locationName", "latitude", "longitude",
   "coordinateUncertainty", "deploymentStart", "deploymentEnd", "setupBy",
   "cameraID", "cameraModel", "cameraDelay", "cameraHeight", "cameraDepth",
   "cameraTilt", "cameraHeading", "detectionDistance", "timestampIssues",
   "baitUse", "featureType", "habitat", "deploymentGroups", "deploymentTags",
   "deploymentComments"]

/-- The field values in declaration order. -/
def toCells (d : Deployment) : List PyVal :=
  [d.deploymentID, d.locationID, d.locationName, d.latitude, d.longitude,
   d.coordinateUncertainty, d.deploymentStart, d.deploymentEnd, d.setupBy,
   d.cameraID, d.cameraModel, d.cameraDelay, d.cameraHeight, d.cameraDepth,
   d.cameraTilt, d.cameraHeading, d.detectionDistance, d.timestampIssues,
   d.baitUse, d.featureType, d.habitat, d.deploymentGroups, d.deploymentTags,
   d.deploymentComments]

/-- `asdict(d)` (equally `d.__dict__`): field name to value, in order. -/
def asdict (d : Deployment) : List (String × PyVal) :=
  List.zip fieldNames (toCells d)

/-- The `Deployment(**row)` call: succeeds iff the keyword set equals
the field-name set (Python raises `TypeError` for a missing or an
unexpected keyword, and for the non-string `restkey`); each parameter
receives the dictionary value of its name. -/
def ofDict (d : List (String × PyVal)) : Except PyError Deployment :=
  if sameKeysB (d.map Prod.fst) fieldNames then
    Except.ok
      { deploymentID := lookupD d "deploymentID"
        locationID := lookupD d "locationID"
        locationName := lookupD d "locationName"
        latitude := lookupD d "latitude"
        longitude := lookupD d "longitude"
        coordinateUncertainty := lookupD d "coordinateUncertainty"
        deploymentStart := lookupD d "deploymentStart"
        deploymentEnd := lookupD d "deploymentEnd"
        setupBy := lookupD d "setupBy"
        cameraID := lookupD d "cameraID"
        cameraModel := lookupD d "cameraModel"
        cameraDelay := lookupD d "cameraDelay"
        cameraHeight := lookupD d "cameraHeight"
        cameraDepth := lookupD d "cameraDepth"
        cameraTilt := lookupD d "cameraTilt"
        cameraHeading := lookupD d "cameraHeading"
        detectionDistance := lookupD d "detectionDistance"
        timestampIssues := lookupD d "timestampIssues"
        baitUse := lookupD d "baitUse"
        featureType := lookupD d "featureType"
        habitat := lookupD d "habitat"
        deploymentGroups := lookupD d "deploymentGroups"
        deploymentTags := lookupD d "deploymentTags"
        deploymentComments := lookupD d "deploymentComments" }
  else Except.error PyError.typeError

/-- `Deployment.from_csv`: read all deployments from CSV text. -/
def from_csv (text : String) : Except PyError (List Deployment) :=
  readCSVtext ofDict text

/-- `Deployment.to_csv`: write all deployments as CSV text. -/
def to_csv (deployments : List Deployment) : String :=
  writeCSVtext fieldNames (deployments.map asdict)

/-- `Deployment.to_pandas`. -/
def to_pandas (deployments : List Deployment) : DataFrame :=
  dfOfRecords fieldNames (deployments.map toCells)

/-- `Deployment.from_pandas`. -/
def from_pandas (dataframe : DataFrame) : Except PyError (List Deployment) :=
  dfToRecords ofDict dataframe

end Deployment

/-! ## The `Media` record kind (`camtrapdp/media.py`) -/

structure Media where
  mediaID : PyVal
  deploymentID : PyVal
  captureMethod : PyVal
  timestamp : PyVal
  filePath : PyVal
  filePublic : PyVal
  fileName : PyVal
  fileMediatype : PyVal
  exifData : PyVal
  favorite : PyVal
  mediaComments : PyVal
deriving DecidableEq, Repr

namespace Media

/-- `Media.__dataclass_fields__.keys()`, in declaration order. -/
def fieldNames : List String :=
  ["mediaID", "deploymentID", "captureMethod", "timestamp", "filePath",
   "filePublic", "fileName", "fileMediatype", "exifData", "favorite",
   "mediaComments"]

/-- The field values in declaration order. -/
def toCells (m : Media) : List PyVal :=
  [m.mediaID, m.deploymentID, m.captureMethod, m.timestamp, m.filePath,
   m.filePublic, m.fileName, m.fileMediatype, m.exifData, m.favorite,
   m.mediaComments]

/-- `asdict(m)`. -/
def asdict (m : Media) : List (String × PyVal) :=
  List.zip fieldNames (toCells m)

/-- The `Media(**row)` call. -/
def ofDict (d : List (String × PyVal)) : Except PyError Media :=
  if sameKeysB (d.map Prod.fst) fieldNames then
    Except.ok
      { mediaID := lookupD d "mediaID"
        deploymentID := lookupD d "deploymentID"
        captureMethod := lookupD d "captureMethod"
        timestamp := lookupD d "timestamp"
        filePath := lookupD d "filePath"
        filePublic := lookupD d "filePublic"
        fileName := lookupD d "fileName"
        fileMediatype := lookupD d "fileMediatype"
        exifData := lookupD d "exifData"
        favorite := lookupD d "favorite"
        mediaComments := lookupD d "mediaComments" }
  else Except.error PyError.typeError

/-- `Media.from_csv`. -/
def from_csv (text : String) : Except PyError (List Media) :=
  readCSVtext ofDict text

/-- `Media.to_csv`. -/
def to_csv (media : List Media) : String :=
  writeCSVtext fieldNames (media.map asdict)

/-- `Media.to_pandas`. -/
def to_pandas (media : List Media) : DataFrame :=
  dfOfRecords fieldNames (media.map toCells)

/-- `Media.from_pandas`. -/
def from_pandas (dataframe : DataFrame) : Except PyError (List Media) :=
  dfToRecords ofDict dataframe

end Media

/-! ## The `Observation` record kind (`camtrapdp/observations.py`) -/

structure Observation where
  observationID : PyVal
  deploymentID : PyVal
  mediaID : PyVal
  eventID : PyVal
  eventStart : PyVal
  eventEnd : PyVal
  observationLevel : PyVal
  observationType : PyVal
  cameraSetupType : PyVal
  scientificName : PyVal
  count : PyVal
  lifeStage : PyVal
  sex : PyVal
  behavior : PyVal
  individualID : PyVal
  individualPositionRadius : PyVal
  individualPositionAngle : PyVal
  individualSpeed : PyVal
  bboxX : PyVal
  bboxY : PyVal
  bboxWidth : PyVal
  bboxHeight : PyVal
  classificationMethod : PyVal
  classifiedBy : PyVal
  classificationTimestamp : PyVal
  classificationProbability : PyVal
  observationTags : PyVal
  observationComments : PyVal
deriving DecidableEq, Repr

namespace Observation

/-- `Observation.__dataclass_fields__.keys()`, in declaration order. -/
def fieldNames : List String :=
  ["observationID", "deploymentID", "mediaID", "eventID", "eventStart",
   "eventEnd", "observationLevel", "observationType", "cameraSetupType",
   "scientificName", "count", "lifeStage", "sex", "behavior", "individualID",
   "individualPositionRadius", "individualPositionAngle", "individualSpeed",
   "bboxX", "bboxY", "bboxWidth", "bboxHeight", "classificationMethod",
   "classifiedBy", "classificationTimestamp", "classificationProbability",
   "observationTags", "observationComments"]

/-- The field values in declaration order. -/
def toCells (o : Observation) : List PyVal :=
  [o.observationID, o.deploymentID, o.mediaID, o.eventID, o.eventStart,
   o.eventEnd, o.observationLevel, o.observationType, o.cameraSetupType,
   o.scientificName, o.count, o.lifeStage, o.sex, o.behavior, o.individualID,
   o.individualPositionRadius, o.individualPositionAngle, o.individualSpeed,
   o.bboxX, o.bboxY, o.bboxWidth, o.bboxHeight, o.classificationMethod,
   o.classifiedBy, o.classificationTimestamp, o.classificationProbability,
   o.observationTags, o.observationComments]

/-- `asdict(o)` (equally `o.__dict__`). -/
def asdict (o : Observation) : List (String × PyVal) :=
  List.zip fieldNames (toCells o)

/-- The `Observation(**row)` call. -/
def ofDict (d : List (String × PyVal)) : Except PyError Observation :=
  if sameKeysB (d.map Prod.fst) fieldNames then
    Except.ok
      { observationID := lookupD d "observationID"
        deploymentID := lookupD d "deploymentID"
        mediaID := lookupD d "mediaID"
        eventID := lookupD d "eventID"
        eventStart := lookupD d "eventStart"
        eventEnd := lookupD d "eventEnd"
        observationLevel := lookupD d "observationLevel"
        observationType := lookupD d "observationType"
        cameraSetupType := lookupD d "cameraSetupType"
        scientificName := lookupD d "scientificName"
        count := lookupD d "count"
        lifeStage := lookupD d "lifeStage"
        sex := lookupD d "sex"
        behavior := lookupD d "behavior"
        individualID := lookupD d "individualID"
        individualPositionRadius := lookupD d "individualPositionRadius"
        individualPositionAngle := lookupD d "individualPositionAngle"
        individualSpeed := lookupD d "individualSpeed"
        bboxX := lookupD d "bboxX"
        bboxY := lookupD d "bboxY"
        bboxWidth := lookupD d "bboxWidth"
        bboxHeight := lookupD d "bboxHeight"
        classificationMethod := lookupD d "classificationMethod"
        classifiedBy := lookupD d "classifiedBy"
        classificationTimestamp := lookupD d "classificationTimestamp"
        classificationProbability := lookupD d "classificationProbability"
        observationTags := lookupD d "observationTags"
        observationComments := lookupD d "observationComments" }
  else Except.error PyError.typeError

/-- `Observation.from_csv`. -/
def from_csv (text : String) : Except PyError (List Observation) :=
  readCSVtext ofDict text

/-- `Observation.to_csv`. -/
def to_csv (observations : List Observation) : String :=
  writeCSVtext fieldNames (observations.map asdict)

/-- `Observation.to_pandas`. -/
def to_pandas (observations : List Observation) : DataFrame :=
  dfOfRecords fieldNames (observations.map toCells)

/-- `Observation.from_pandas`. -/
def from_pandas (dataframe : DataFrame) : Except PyError (List Observation) :=
  dfToRecords ofDict dataframe

end Observation

/-! ## The duplicate `Deployment` at the package root (`__init__.py`)

The package root re-declares the deployment dataclass with field
`habitatType` in place of `habitat`, and its `from_csv` / `to_csv`
bodies are a bare `raise NotImplementedError`. -/

namespace PackageRoot

structure Deployment where
  deploymentID : PyVal
  locationID : PyVal
  locationName : PyVal
  latitude : PyVal
  longitude : PyVal
  coordinateUncertainty : PyVal
  deploymentStart : PyVal
  deploymentEnd : PyVal
  setupBy : PyVal
  cameraID : PyVal
  cameraModel : PyVal
  cameraDelay : PyVal
  cameraHeight : PyVal
  cameraDepth : PyVal
  cameraTilt : PyVal
  cameraHeading : PyVal
  detectionDistance : PyVal
  timestampIssues : PyVal
  baitUse : PyVal
  featureType : PyVal
  habitatType : PyVal
  deploymentGroups : PyVal
  deploymentTags : PyVal
  deploymentComments : PyVal
deriving DecidableEq, Repr

namespace Deployment

/-- Field names of the package-root `Deployment`, declaration order. -/
def fieldNames : List String :=
  ["deploymentID", "locationID", "locationName", "latitude", "longitude",
   "coordinateUncertainty", "deploymentStart", "deploymentEnd", "setupBy",
   "cameraID", "cameraModel", "cameraDelay", "cameraHeight", "cameraDepth",
   "cameraTilt", "cameraHeading", "detectionDistance", "timestampIssues",
   "baitUse", "featureType", "habitatType", "deploymentGroups",
   "deploymentTags", "deploymentComments"]

/-- `def from_csv(): raise NotImplementedError`. -/
def from_csv : Except PyError (List Deployment) :=
  Except.error PyError.notImplementedError

/-- `def to_csv(): raise NotImplementedError`. -/
def to_csv : Except PyError String :=
  Except.error PyError.notImplementedError

end Deployment

end PackageRoot

/-! ## Generic lemmas: list comprehensions with exceptions -/

theorem exceptMapM_ok_map (f : α → Except PyError β) (g : α → β) (l : List α)
    (h : ∀ a ∈ l, f a = Except.ok (g a)) :
    exceptMapM f l = Except.ok (l.map g) := by
  induction l with
  | nil => simp [exceptMapM]
  | cons a as ih =>
    simp only [exceptMapM, h a (by simp), ih (fun x hx => h x (by simp [hx])), List.map_cons]

theorem exceptMapM_ok_exists (f : α → Except PyError β) (l : List α)
    (h : ∀ a ∈ l, ∃ b, f a = Except.ok b) :
    ∃ bs, exceptMapM f l = Except.ok bs ∧ bs.length = l.length ∧
      ∀ i (h1 : i < l.length) (h2 : i < bs.length), f (l.get ⟨i, h1⟩) = Except.ok (bs.get ⟨i, h2⟩) := by
  induction l with
  | nil => exact ⟨[], by simp [exceptMapM]⟩
  | cons a as ih =>
    obtain ⟨b, hb⟩ := h a (by simp)
    obtain ⟨bs, hbs, hlen, hget⟩ := ih (fun x hx => h x (by simp [hx]))
    refine ⟨b :: bs, ?_, by simp [hlen], ?_⟩
    · simp only [exceptMapM, hb, hbs]
    · intro i h1 h2
      match i with
      | 0 => simpa using hb
      | i + 1 =>
        simp only [List.get_cons_succ]
        exact hget i (by simpa using h1) (by simpa using h2)

theorem exceptMapM_error_head (f : α → Except PyError β) (a : α) (l : List α)
    (e : PyError) (h : f a = Except.error e) :
    exceptMapM f (a :: l) = Except.error e := by
  simp only [exceptMapM, h]

theorem exceptMapM_ok_mem (f : α → Except PyError β) (l : List α) (bs : List β)
    (h : exceptMapM f l = Except.ok bs) :
    ∀ b ∈ bs, ∃ a ∈ l, f a = Except.ok b := by
  induction l generalizing bs with
  | nil =>
    simp only [exceptMapM, Except.ok.injEq] at h
    subst h
    simp
  | cons a as ih =>
    simp only [exceptMapM] at h
    revert h
    split
    · intro h
      exact absurd h (by simp)
    · next b0 hb0 =>
      split
      · intro h
        exact absurd h (by simp)
      · next bs0 hbs0 =>
        intro h
        simp only [Except.ok.injEq] at h
        subst h
        intro b hb
        rcases List.mem_cons.mp hb with rfl | hb
        · exact ⟨a, by simp, hb0⟩
        · obtain ⟨a2, ha2, hfa2⟩ := ih bs0 hbs0 b hb
          exact ⟨a2, by simp [ha2], hfa2⟩

/-! ## Generic lemmas: universal-newline translation -/

theorem univNewlines_cons_ne (c : Char) (cs : List Char) (h : c ≠ '\r') :
    univNewlines (c :: cs) = c :: univNewlines cs := by
  rw [univNewlines.eq_def]
  split
  all_goals simp_all

theorem univNewlines_append_noCR (a b : List Char) (h : ∀ c ∈ a, c ≠ '\r') :
    univNewlines (a ++ b) = a ++ univNewlines b := by
  induction a with
  | nil => simp
  | cons c a ih =>
    rw [List.cons_append, univNewlines_cons_ne c _ (h c (by simp))]
    rw [ih (fun x hx => h x (by simp [hx]))]
    simp

theorem univNewlines_crlf (b : List Char) :
    univNewlines ('\r' :: '\n' :: b) = '\n' :: univNewlines b := rfl

/-! ## Generic lemmas: field and row round trips through the parser -/

theorem dquote_noCR (s : List Char) (h : ∀ c ∈ s, c ≠ '\r') :
    ∀ c ∈ dquote s, c ≠ '\r' := by
  induction s with
  | nil => simp [dquote]
  | cons a s ih =>
    simp only [dquote]
    split
    · intro c hc
      rcases hc with _ | ⟨_, hc⟩
      · simp_all
      · rcases hc with _ | ⟨_, hc⟩
        · simp_all
        · exact ih (fun x hx => h x (by simp [hx])) c (by simpa using hc)
    · intro c hc
      rcases List.mem_cons.mp hc with rfl | hc
      · exact h c (by simp)
      · exact ih (fun x hx => h x (by simp [hx])) c hc

theorem escapeChars_noCR (s : List Char) (h : ∀ c ∈ s, c ≠ '\r') :
    ∀ c ∈ escapeChars s, c ≠ '\r' := by
  unfold escapeChars
  split
  · intro c hc
    rcases List.mem_cons.mp hc with rfl | hc
    · simp
    · rcases List.mem_append.mp hc with hc | hc
      · exact dquote_noCR s h c hc
      · simp only [List.mem_singleton] at hc
        subst hc
        simp
  · exact h

theorem joinComma_noCR (xs : List (List Char)) (h : ∀ x ∈ xs, ∀ c ∈ x, c ≠ '\r') :
    ∀ c ∈ joinComma xs, c ≠ '\r' := by
  induction xs with
  | nil => simp [joinComma]
  | cons x xs ih =>
    match xs with
    | [] => simpa [joinComma] using h x (by simp)
    | y :: ys =>
      intro c hc
      simp only [joinComma] at hc
      rcases List.mem_append.mp hc with hc | hc
      · exact h x (by simp) c hc
      · rcases List.mem_cons.mp hc with rfl | hc
        · simp
        · exact ih (fun z hz => h z (by simp [hz])) c hc

theorem scanU_sep (c : Char) (cs : List Char) (h : (c = ',' || c = '\n') = true) :
    scanU (c :: cs) = ([], some c, cs) := by
  simp only [scanU, h]
  rfl

theorem scanU_cons (c : Char) (cs : List Char) (h : (c = ',' || c = '\n') = false) :
    scanU (c :: cs) = (c :: (scanU cs).1, (scanU cs).2.1, (scanU cs).2.2) := by
  simp only [scanU, h]
  rfl

theorem dquote_cons_quote (s : List Char) : dquote ('"' :: s) = '"' :: '"' :: dquote s := by
  simp [dquote]

theorem dquote_cons (c : Char) (s : List Char) (h : c ≠ '"') :
    dquote (c :: s) = c :: dquote s := by
  simp [dquote, h]

theorem parseFieldQ_qq (cs : List Char) :
    parseFieldQ ('"' :: '"' :: cs) = ('"' :: (parseFieldQ cs).1, (parseFieldQ cs).2) := by
  rw [parseFieldQ.eq_def]
  simp

theorem parseFieldQ_close (c2 : Char) (cs : List Char) (h : c2 ≠ '"') :
    parseFieldQ ('"' :: c2 :: cs) = ([], c2 :: cs) := by
  rw [parseFieldQ.eq_def]
  simp [h]

theorem parseFieldQ_lone_quote : parseFieldQ ['"'] = ([], []) := by
  rw [parseFieldQ.eq_def]
  simp

theorem parseFieldQ_cons (c : Char) (cs : List Char) (h : c ≠ '"') :
    parseFieldQ (c :: cs) = (c :: (parseFieldQ cs).1, (parseFieldQ cs).2) := by
  rw [parseFieldQ.eq_def]
  simp [h]

theorem scanU_append_sep (s : List Char) (sep : Char) (r : List Char)
    (hclean : ∀ c ∈ s, (c = ',' || c = '\n') = false)
    (hsep : (sep = ',' || sep = '\n') = true) :
    scanU (s ++ sep :: r) = (s, some sep, r) := by
  induction s with
  | nil =>
    rw [List.nil_append, scanU_sep sep r hsep]
  | cons c s ih =>
    rw [List.cons_append, scanU_cons c _ (hclean c (by simp)),
      ih (fun x hx => hclean x (by simp [hx]))]

theorem scanU_clean (s : List Char)
    (hclean : ∀ c ∈ s, (c = ',' || c = '\n') = false) :
    scanU s = (s, none, []) := by
  induction s with
  | nil => simp [scanU]
  | cons c s ih =>
    rw [scanU_cons c _ (hclean c (by simp)), ih (fun x hx => hclean x (by simp [hx]))]

theorem parseFieldQ_dquote (s : List Char) (r : List Char)
    (hr : ∀ c, r.head? = some c → c ≠ '"') :
    parseFieldQ (dquote s ++ '"' :: r) = (s, r) := by
  induction s with
  | nil =>
    simp only [dquote, List.nil_append]
    match r, hr with
    | [], hr => exact parseFieldQ_lone_quote
    | c2 :: r2, hr => exact parseFieldQ_close c2 r2 (hr c2 rfl)
  | cons c s ih =>
    by_cases hc : c = '"'
    · subst hc
      rw [dquote_cons_quote, List.cons_append, List.cons_append, parseFieldQ_qq, ih]
    · rw [dquote_cons c s hc, List.cons_append, parseFieldQ_cons c _ hc, ih]

theorem needsQuote_false_mem (s : List Char) (h : needsQuote s = false) :
    ∀ c ∈ s, c ≠ ',' ∧ c ≠ '"' ∧ c ≠ '\r' ∧ c ≠ '\n' := by
  intro c hc
  simp only [needsQuote, List.any_eq_true, not_exists] at h
  rw [Bool.eq_false_iff] at h
  simp only [ne_eq, List.any_eq_true, not_exists, not_and] at h
  have := h c hc
  simp only [Bool.or_eq_true, decide_eq_true_eq, not_or] at this
  tauto

theorem parseField_escape_sep (s : List Char) (sep : Char) (r : List Char)
    (hsep : (sep = ',' || sep = '\n') = true) :
    parseField (escapeChars s ++ sep :: r) = (s, some sep, r) := by
  have hsepq : sep ≠ '"' := by
    rcases Bool.or_eq_true_iff.mp hsep with h | h
    · simp only [decide_eq_true_eq] at h
      subst h
      decide
    · simp only [decide_eq_true_eq] at h
      subst h
      decide
  unfold escapeChars
  split
  · -- quoted field
    rw [List.cons_append, List.append_assoc, List.singleton_append]
    simp only [parseField, if_true]
    rw [parseFieldQ_dquote s (sep :: r) (fun c hc => by
      simp only [List.head?_cons, Option.some.injEq] at hc
      subst hc
      exact hsepq)]
    rw [scanU_sep sep r hsep]
    simp
  · -- unquoted field
    next hq =>
    have hclean := needsQuote_false_mem s (Bool.eq_false_iff.mpr hq)
    match s with
    | [] =>
      rw [List.nil_append]
      simp only [parseField]
      rw [if_neg hsepq]
      exact scanU_sep sep r hsep
    | a :: s' =>
      rw [List.cons_append]
      simp only [parseField]
      rw [if_neg (hclean a (by simp)).2.1]
      rw [← List.cons_append]
      exact scanU_append_sep (a :: s') sep r
        (fun c hc => by
          have := hclean c hc
          simp [this.1, this.2.2.2])
        hsep

theorem parseRow_cells (cells : List String) (r : List Char) (hne : cells ≠ []) :
    parseRow (joinComma (cells.map (fun s => escapeChars s.data)) ++ '\n' :: r) = (cells, r) := by
  induction cells with
  | nil => exact absurd rfl hne
  | cons c cells ih =>
    match cells with
    | [] =>
      simp only [List.map_cons, List.map_nil, joinComma]
      rw [parseRow_unfold]
      rw [parseField_escape_sep c.data '\n' r (by decide)]
      simp
    | c2 :: cells2 =>
      simp only [List.map_cons, joinComma, ← List.map_cons]
      rw [List.append_assoc, List.cons_append]
      rw [parseRow_unfold]
      rw [parseField_escape_sep c.data ',' _ (by decide)]
      have := ih (by simp)
      simp only [List.map_cons] at this
      show ((⟨c.data⟩ : String) ::
          (parseRow (joinComma (escapeChars c2.data ::
            List.map (fun s => escapeChars s.data) cells2) ++ '\n' :: r)).1,
          (parseRow (joinComma (escapeChars c2.data ::
            List.map (fun s => escapeChars s.data) cells2) ++ '\n' :: r)).2) =
        (c :: c2 :: cells2, r)
      rw [this]

theorem escapeChars_ne_quote_head (s : List Char) :
    ∀ c0 t0, escapeChars s = c0 :: t0 → c0 = '"' ∨ (c0 ∈ s ∧ needsQuote s = false) := by
  unfold escapeChars
  split
  · intro c0 t0 h
    simp only [List.cons.injEq] at h
    exact Or.inl h.1.symm
  · next hq =>
    intro c0 t0 h
    exact Or.inr ⟨h ▸ by simp, Bool.eq_false_iff.mpr hq⟩

theorem joinComma_escape_head (cells : List String) (h2 : 2 ≤ cells.length) :
    ∃ c0 t0, joinComma (cells.map (fun s => escapeChars s.data)) = c0 :: t0 ∧
      (c0 = ',' ∨ c0 = '"' ∨ ∃ s ∈ cells, c0 ∈ s.data ∧ needsQuote s.data = false) := by
  match cells with
  | a :: b :: cs =>
    have hja : joinComma ((a :: b :: cs).map (fun s => escapeChars s.data)) =
        escapeChars a.data ++ ',' :: joinComma ((b :: cs).map (fun s => escapeChars s.data)) := by
      simp [joinComma]
    match ha : escapeChars a.data with
    | [] =>
      refine ⟨',', joinComma ((b :: cs).map (fun s => escapeChars s.data)), ?_, Or.inl rfl⟩
      rw [hja, ha]
      rfl
    | c0 :: t0 =>
      refine ⟨c0, t0 ++ ',' :: joinComma ((b :: cs).map (fun s => escapeChars s.data)), ?_, ?_⟩
      · rw [hja, ha]
        rfl
      · rcases escapeChars_ne_quote_head a.data c0 t0 ha with h | h
        · exact Or.inr (Or.inl h)
        · exact Or.inr (Or.inr ⟨a, by simp, h.1, h.2⟩)

theorem univNewlines_encodeRow (cells : List String) (rest : List Char)
    (hcr : ∀ s ∈ cells, ∀ c ∈ s.data, c ≠ '\r') (hone : cells ≠ [""]) :
    univNewlines (encodeRow cells ++ rest) =
      joinComma (cells.map (fun s => escapeChars s.data)) ++ '\n' :: univNewlines rest := by
  rw [encodeRow, if_neg hone]
  rw [List.append_assoc]
  have hbody : ∀ c ∈ joinComma (cells.map (fun s => escapeChars s.data)), c ≠ '\r' := by
    apply joinComma_noCR
    intro x hx
    rcases List.mem_map.mp hx with ⟨s, hs, rfl⟩
    exact escapeChars_noCR s.data (hcr s hs)
  rw [univNewlines_append_noCR _ _ hbody]
  simp only [List.cons_append, List.nil_append]
  rw [univNewlines_crlf]

theorem parseCSV_cons_ne (c : Char) (cs : List Char) (h : c ≠ '\n') :
    parseCSV (c :: cs) = (parseRow (c :: cs)).1 :: parseCSV (parseRow (c :: cs)).2 := by
  rw [parseCSV_unfold]
  simp [h]

theorem parseCSV_step (cells : List String) (rest : List Char)
    (h2 : 2 ≤ cells.length) :
    parseCSV (joinComma (cells.map (fun s => escapeChars s.data)) ++ '\n' :: rest) =
      cells :: parseCSV rest := by
  obtain ⟨c0, t0, hbody, hc0⟩ := joinComma_escape_head cells h2
  have hc0n : c0 ≠ '\n' := by
    rcases hc0 with rfl | rfl | ⟨s, hs, hmem, hq⟩
    · decide
    · decide
    · exact (needsQuote_false_mem s.data hq c0 hmem).2.2.2
  rw [hbody, List.cons_append, parseCSV_cons_ne c0 _ hc0n, ← List.cons_append, ← hbody]
  have hne : cells ≠ [] := by
    intro h
    subst h
    simp at h2
  rw [parseRow_cells cells rest hne]

theorem parseCSV_encoded_rows (rows : List (List String))
    (hwf : ∀ row ∈ rows, 2 ≤ row.length ∧ ∀ s ∈ row, ∀ c ∈ s.data, c ≠ '\r') :
    parseCSV (univNewlines ((rows.map encodeRow).flatten)) = rows := by
  induction rows with
  | nil => rfl
  | cons row rows ih =>
    have hrow := hwf row (by simp)
    have hone : row ≠ [""] := by
      intro h
      rw [h] at hrow
      simp at hrow
    simp only [List.map_cons, List.flatten_cons]
    rw [univNewlines_encodeRow row _ hrow.2 hone]
    rw [parseCSV_step row _ hrow.1]
    rw [ih (fun x hx => hwf x (by simp [hx]))]

theorem stripBOM_cons_ne (c : Char) (cs : List Char) (h : c ≠ '﻿') :
    stripBOM (c :: cs) = c :: cs := by
  simp [stripBOM, h]

theorem filter_nonempty_eq_self (l : List (List String)) (h : ∀ r ∈ l, r ≠ []) :
    l.filter (fun r => !r.isEmpty) = l := by
  induction l with
  | nil => rfl
  | cons a as ih =>
    rw [List.filter_cons]
    rw [if_pos (by simpa using h a (by simp))]
    rw [ih (fun x hx => h x (by simp [hx]))]

/-- The central writer-reader bridge: reading back text produced by
`DictWriter` recovers the header and exactly the written rows, provided
no written cell contains a carriage return (the universal-newline
translation of `from_csv`'s text-mode read would rewrite one) and no
field name starts the file with a byte-order mark. -/
theorem readCSVtext_writeCSVtext (ctor : List (String × PyVal) → Except PyError ρ)
    (names : List String) (dicts : List (List (String × PyVal)))
    (h2 : 2 ≤ names.length)
    (hncr : ∀ s ∈ names, ∀ c ∈ s.data, c ≠ '\r')
    (hnbom : ∀ s ∈ names, ∀ c ∈ s.data, c ≠ '﻿')
    (hdcr : ∀ d ∈ dicts, ∀ s ∈ dictWriterCells names d, ∀ c ∈ s.data, c ≠ '\r') :
    readCSVtext ctor (writeCSVtext names dicts) =
      exceptMapM (readRow ctor names) (dicts.map (dictWriterCells names)) := by
  have hone : names ≠ [""] := by
    intro h
    rw [h] at h2
    simp at h2
  have htext : (writeCSVtext names dicts).data =
      encodeRow names ++ (dicts.map (fun d => encodeRow (dictWriterCells names d))).flatten := rfl
  -- the first character of the emitted text is not a byte-order mark
  obtain ⟨c0, t0, hbody, hc0⟩ := joinComma_escape_head names h2
  have hc0bom : c0 ≠ '﻿' := by
    rcases hc0 with rfl | rfl | ⟨s, hs, hmem, _⟩
    · decide
    · decide
    · exact hnbom s hs c0 hmem
  have hrowshape : encodeRow names = c0 :: (t0 ++ ['\r', '\n']) := by
    rw [encodeRow, if_neg hone, hbody]
    rfl
  have hstrip : stripBOM (writeCSVtext names dicts).data = (writeCSVtext names dicts).data := by
    rw [htext, hrowshape]
    rw [List.cons_append]
    exact stripBOM_cons_ne c0 _ hc0bom
  unfold readCSVtext
  rw [hstrip, htext]
  rw [univNewlines_encodeRow names _ hncr hone]
  rw [parseCSV_step names _ h2]
  have hmaps : List.map (fun d => encodeRow (dictWriterCells names d)) dicts =
      (dicts.map (dictWriterCells names)).map encodeRow := by
    simp [List.map_map]
  rw [hmaps]
  rw [parseCSV_encoded_rows (dicts.map (dictWriterCells names)) ?hwf]
  case hwf =>
    intro row hrow
    rcases List.mem_map.mp hrow with ⟨d, hd, rfl⟩
    constructor
    · simpa [dictWriterCells] using h2
    · exact hdcr d hd
  simp only
  rw [filter_nonempty_eq_self]
  intro r hr
  rcases List.mem_map.mp hr with ⟨d, hd, rfl⟩
  intro hnil
  have : names.length = 0 := by
    have := congrArg List.length hnil
    simpa [dictWriterCells] using this
  omega

theorem exceptMapM_map (f : γ → Except PyError β) (h : α → γ) (l : List α) :
    exceptMapM f (l.map h) = exceptMapM (fun a => f (h a)) l := by
  induction l with
  | nil => rfl
  | cons a as ih => simp only [List.map_cons, exceptMapM, ih]

/-- The record `from_csv` reconstructs after `to_csv` has written `d`:
every field is the raw written cell text. -/
def Deployment.reread (d : Deployment) : Deployment :=
  { deploymentID := PyVal.vstr (serializeCell d.deploymentID)
    locationID := PyVal.vstr (serializeCell d.locationID)
    locationName := PyVal.vstr (serializeCell d.locationName)
    latitude := PyVal.vstr (serializeCell d.latitude)
    longitude := PyVal.vstr (serializeCell d.longitude)
    coordinateUncertainty := PyVal.vstr (serializeCell d.coordinateUncertainty)
    deploymentStart := PyVal.vstr (serializeCell d.deploymentStart)
    deploymentEnd := PyVal.vstr (serializeCell d.deploymentEnd)
    setupBy := PyVal.vstr (serializeCell d.setupBy)
    cameraID := PyVal.vstr (serializeCell d.cameraID)
    cameraModel := PyVal.vstr (serializeCell d.cameraModel)
    cameraDelay := PyVal.vstr (serializeCell d.cameraDelay)
    cameraHeight := PyVal.vstr (serializeCell d.cameraHeight)
    cameraDepth := PyVal.vstr (serializeCell d.cameraDepth)
    cameraTilt := PyVal.vstr (serializeCell d.cameraTilt)
    cameraHeading := PyVal.vstr (serializeCell d.cameraHeading)
    detectionDistance := PyVal.vstr (serializeCell d.detectionDistance)
    timestampIssues := PyVal.vstr (serializeCell d.timestampIssues)
    baitUse := PyVal.vstr (serializeCell d.baitUse)
    featureType := PyVal.vstr (serializeCell d.featureType)
    habitat := PyVal.vstr (serializeCell d.habitat)
    deploymentGroups := PyVal.vstr (serializeCell d.deploymentGroups)
    deploymentTags := PyVal.vstr (serializeCell d.deploymentTags)
    deploymentComments := PyVal.vstr (serializeCell d.deploymentComments) }

theorem Deployment.dictWriterCells_asdict_dep (d : Deployment) :
    dictWriterCells Deployment.fieldNames (Deployment.asdict d) =
      (Deployment.toCells d).map serializeCell := rfl

theorem Deployment.dictWriterCells_reread_dep (x : Deployment) :
    dictWriterCells Deployment.fieldNames (Deployment.asdict (Deployment.reread x)) =
      dictWriterCells Deployment.fieldNames (Deployment.asdict x) := rfl

theorem Deployment.readRow_writer_dep (d : Deployment) :
    readRow Deployment.ofDict Deployment.fieldNames
        (dictWriterCells Deployment.fieldNames (Deployment.asdict d)) =
      Except.ok (Deployment.reread d) := rfl

theorem Deployment.ofDict_asdict_dep (d : Deployment) :
    Deployment.ofDict (Deployment.asdict d) = Except.ok d := rfl

theorem Deployment.from_csv_to_csv_dep (rs : List Deployment)
    (hcr : ∀ r ∈ rs, ∀ v ∈ Deployment.toCells r, ∀ c ∈ (serializeCell v).data, c ≠ '\r') :
    Deployment.from_csv (Deployment.to_csv rs) = Except.ok (rs.map Deployment.reread) := by
  unfold Deployment.from_csv Deployment.to_csv
  rw [readCSVtext_writeCSVtext Deployment.ofDict Deployment.fieldNames (rs.map Deployment.asdict)
    (by decide) (by decide) (by decide) ?hdcr]
  case hdcr =>
    intro d hd s hs c hc
    rcases List.mem_map.mp hd with ⟨r, hr, rfl⟩
    rw [Deployment.dictWriterCells_asdict_dep] at hs
    rcases List.mem_map.mp hs with ⟨v, hv, rfl⟩
    exact hcr r hr v hv c hc
  rw [List.map_map]
  rw [exceptMapM_map]
  exact exceptMapM_ok_map _ Deployment.reread rs (fun r hr => Deployment.readRow_writer_dep r)

theorem Deployment.to_csv_reread_dep (rs : List Deployment) :
    Deployment.to_csv (rs.map Deployment.reread) = Deployment.to_csv rs := by
  suffices h : List.map (fun d => encodeRow (dictWriterCells Deployment.fieldNames d))
      ((rs.map Deployment.reread).map Deployment.asdict) =
      List.map (fun d => encodeRow (dictWriterCells Deployment.fieldNames d)) (rs.map Deployment.asdict) by
    unfold Deployment.to_csv writeCSVtext
    rw [h]
  induction rs with
  | nil => rfl
  | cons r rs ih =>
    simp only [List.map_cons]
    rw [ih, Deployment.dictWriterCells_reread_dep]

/-- The record `from_csv` reconstructs after `to_csv` has written `m`. -/
def Media.reread (m : Media) : Media :=
  { mediaID := PyVal.vstr (serializeCell m.mediaID)
    deploymentID := PyVal.vstr (serializeCell m.deploymentID)
    captureMethod := PyVal.vstr (serializeCell m.captureMethod)
    timestamp := PyVal.vstr (serializeCell m.timestamp)
    filePath := PyVal.vstr (serializeCell m.filePath)
    filePublic := PyVal.vstr (serializeCell m.filePublic)
    fileName := PyVal.vstr (serializeCell m.fileName)
    fileMediatype := PyVal.vstr (serializeCell m.fileMediatype)
    exifData := PyVal.vstr (serializeCell m.exifData)
    favorite := PyVal.vstr (serializeCell m.favorite)
    mediaComments := PyVal.vstr (serializeCell m.mediaComments) }

theorem Media.dictWriterCells_asdict_med (m : Media) :
    dictWriterCells Media.fieldNames (Media.asdict m) =
      (Media.toCells m).map serializeCell := rfl

theorem Media.dictWriterCells_reread_med (x : Media) :
    dictWriterCells Media.fieldNames (Media.asdict (Media.reread x)) =
      dictWriterCells Media.fieldNames (Media.asdict x) := rfl

theorem Media.readRow_writer_med (m : Media) :
    readRow Media.ofDict Media.fieldNames
        (dictWriterCells Media.fieldNames (Media.asdict m)) =
      Except.ok (Media.reread m) := rfl

theorem Media.ofDict_asdict_med (m : Media) :
    Media.ofDict (Media.asdict m) = Except.ok m := rfl

theorem Media.from_csv_to_csv_med (rs : List Media)
    (hcr : ∀ r ∈ rs, ∀ v ∈ Media.toCells r, ∀ c ∈ (serializeCell v).data, c ≠ '\r') :
    Media.from_csv (Media.to_csv rs) = Except.ok (rs.map Media.reread) := by
  unfold Media.from_csv Media.to_csv
  rw [readCSVtext_writeCSVtext Media.ofDict Media.fieldNames (rs.map Media.asdict)
    (by decide) (by decide) (by decide) ?hdcr]
  case hdcr =>
    intro d hd s hs c hc
    rcases List.mem_map.mp hd with ⟨r, hr, rfl⟩
    rw [Media.dictWriterCells_asdict_med] at hs
    rcases List.mem_map.mp hs with ⟨v, hv, rfl⟩
    exact hcr r hr v hv c hc
  rw [List.map_map]
  rw [exceptMapM_map]
  exact exceptMapM_ok_map _ Media.reread rs (fun r hr => Media.readRow_writer_med r)

theorem Media.to_csv_reread_med (rs : List Media) :
    Media.to_csv (rs.map Media.reread) = Media.to_csv rs := by
  suffices h : List.map (fun d => encodeRow (dictWriterCells Media.fieldNames d))
      ((rs.map Media.reread).map Media.asdict) =
      List.map (fun d => encodeRow (dictWriterCells Media.fieldNames d)) (rs.map Media.asdict) by
    unfold Media.to_csv writeCSVtext
    rw [h]
  induction rs with
  | nil => rfl
  | cons r rs ih =>
    simp only [List.map_cons]
    rw [ih, Media.dictWriterCells_reread_med]

/-- The record `from_csv` reconstructs after `to_csv` has written `o`. -/
def Observation.reread (o : Observation) : Observation :=
  { observationID := PyVal.vstr (serializeCell o.observationID)
    deploymentID := PyVal.vstr (serializeCell o.deploymentID)
    mediaID := PyVal.vstr (serializeCell o.mediaID)
    eventID := PyVal.vstr (serializeCell o.eventID)
    eventStart := PyVal.vstr (serializeCell o.eventStart)
    eventEnd := PyVal.vstr (serializeCell o.eventEnd)
    observationLevel := PyVal.vstr (serializeCell o.observationLevel)
    observationType := PyVal.vstr (serializeCell o.observationType)
    cameraSetupType := PyVal.vstr (serializeCell o.cameraSetupType)
    scientificName := PyVal.vstr (serializeCell o.scientificName)
    count := PyVal.vstr (serializeCell o.count)
    lifeStage := PyVal.vstr (serializeCell o.lifeStage)
    sex := PyVal.vstr (serializeCell o.sex)
    behavior := PyVal.vstr (serializeCell o.behavior)
    individualID := PyVal.vstr (serializeCell o.individualID)
    individualPositionRadius := PyVal.vstr (serializeCell o.individualPositionRadius)
    individualPositionAngle := PyVal.vstr (serializeCell o.individualPositionAngle)
    individualSpeed := PyVal.vstr (serializeCell o.individualSpeed)
    bboxX := PyVal.vstr (serializeCell o.bboxX)
    bboxY := PyVal.vstr (serializeCell o.bboxY)
    bboxWidth := PyVal.vstr (serializeCell o.bboxWidth)
    bboxHeight := PyVal.vstr (serializeCell o.bboxHeight)
    classificationMethod := PyVal.vstr (serializeCell o.classificationMethod)
    classifiedBy := PyVal.vstr (serializeCell o.classifiedBy)
    classificationTimestamp := PyVal.vstr (serializeCell o.classificationTimestamp)
    classificationProbability := PyVal.vstr (serializeCell o.classificationProbability)
    observationTags := PyVal.vstr (serializeCell o.observationTags)
    observationComments := PyVal.vstr (serializeCell o.observationComments) }

theorem Observation.dictWriterCells_asdict_obs (o : Observation) :
    dictWriterCells Observation.fieldNames (Observation.asdict o) =
      (Observation.toCells o).map serializeCell := rfl

theorem Observation.dictWriterCells_reread_obs (x : Observation) :
    dictWriterCells Observation.fieldNames (Observation.asdict (Observation.reread x)) =
      dictWriterCells Observation.fieldNames (Observation.asdict x) := rfl

theorem Observation.readRow_writer_obs (o : Observation) :
    readRow Observation.ofDict Observation.fieldNames
        (dictWriterCells Observation.fieldNames (Observation.asdict o)) =
      Except.ok (Observation.reread o) := rfl

theorem Observation.ofDict_asdict_obs (o : Observation) :
    Observation.ofDict (Observation.asdict o) = Except.ok o := rfl

theorem Observation.from_csv_to_csv_obs (rs : List Observation)
    (hcr : ∀ r ∈ rs, ∀ v ∈ Observation.toCells r, ∀ c ∈ (serializeCell v).data, c ≠ '\r') :
    Observation.from_csv (Observation.to_csv rs) = Except.ok (rs.map Observation.reread) := by
  unfold Observation.from_csv Observation.to_csv
  rw [readCSVtext_writeCSVtext Observation.ofDict Observation.fieldNames (rs.map Observation.asdict)
    (by decide) (by decide) (by decide) ?hdcr]
  case hdcr =>
    intro d hd s hs c hc
    rcases List.mem_map.mp hd with ⟨r, hr, rfl⟩
    rw [Observation.dictWriterCells_asdict_obs] at hs
    rcases List.mem_map.mp hs with ⟨v, hv, rfl⟩
    exact hcr r hr v hv c hc
  rw [List.map_map]
  rw [exceptMapM_map]
  exact exceptMapM_ok_map _ Observation.reread rs (fun r hr => Observation.readRow_writer_obs r)

theorem Observation.to_csv_reread_obs (rs : List Observation) :
    Observation.to_csv (rs.map Observation.reread) = Observation.to_csv rs := by
  suffices h : List.map (fun d => encodeRow (dictWriterCells Observation.fieldNames d))
      ((rs.map Observation.reread).map Observation.asdict) =
      List.map (fun d => encodeRow (dictWriterCells Observation.fieldNames d)) (rs.map Observation.asdict) by
    unfold Observation.to_csv writeCSVtext
    rw [h]
  induction rs with
  | nil => rfl
  | cons r rs ih =>
    simp only [List.map_cons]
    rw [ih, Observation.dictWriterCells_reread_obs]

/-! ## Generic lemmas for the error paths and the pandas bridge -/

theorem exceptMapM_error_mem (f : α → Except PyError β) (l : List α) (e : PyError)
    (h : exceptMapM f l = Except.error e) : ∃ a ∈ l, f a = Except.error e := by
  induction l with
  | nil => simp [exceptMapM] at h
  | cons a as ih =>
    simp only [exceptMapM] at h
    revert h
    split
    next e0 he0 =>
      intro h
      simp only [Except.error.injEq] at h
      subst h
      exact ⟨a, by simp, he0⟩
    next b hb =>
      split
      next e0 he0 =>
        intro h
        simp only [Except.error.injEq] at h
        subst h
        obtain ⟨x, hx, hfx⟩ := ih he0
        exact ⟨x, by simp [hx], hfx⟩
      next bs hbs =>
        intro h
        simp at h

theorem exceptMapM_error_all (f : α → Except PyError β) (l : List α) (e : PyError)
    (hne : l ≠ []) (h : ∀ a ∈ l, f a = Except.error e) :
    exceptMapM f l = Except.error e := by
  match l with
  | [] => exact absurd rfl hne
  | a :: as => simp only [exceptMapM, h a (by simp)]

theorem lookup_mem_val (d : List (String × PyVal)) (k : String) (v : PyVal)
    (hk : d.lookup k = some v) : ∃ p ∈ d, p.2 = v := by
  induction d with
  | nil => simp [List.lookup] at hk
  | cons p ps ih =>
    rw [List.lookup] at hk
    revert hk
    split
    · intro hk
      simp only [Option.some.injEq] at hk
      exact ⟨p, by simp, hk⟩
    · intro hk
      obtain ⟨q, hq, hqv⟩ := ih hk
      exact ⟨q, by simp [hq], hqv⟩

theorem lookupD_prop (P : PyVal → Prop) (d : List (String × PyVal)) (k : String)
    (hP : ∀ p ∈ d, P p.2) (hnone : P PyVal.vnone) : P (lookupD d k) := by
  unfold lookupD
  match hk : d.lookup k with
  | none => simpa using hnone
  | some v =>
    obtain ⟨p, hp, hpv⟩ := lookup_mem_val d k v hk
    simpa [hpv] using hP p hp

theorem Deployment.ofDict_guard_false_dep (d : List (String × PyVal))
    (h : sameKeysB (d.map Prod.fst) Deployment.fieldNames = false) :
    Deployment.ofDict d = Except.error PyError.typeError := by
  unfold Deployment.ofDict
  rw [h]
  rfl

theorem Media.ofDict_guard_false_med (d : List (String × PyVal))
    (h : sameKeysB (d.map Prod.fst) Media.fieldNames = false) :
    Media.ofDict d = Except.error PyError.typeError := by
  unfold Media.ofDict
  rw [h]
  rfl

theorem Observation.ofDict_guard_false_obs (d : List (String × PyVal))
    (h : sameKeysB (d.map Prod.fst) Observation.fieldNames = false) :
    Observation.ofDict d = Except.error PyError.typeError := by
  unfold Observation.ofDict
  rw [h]
  rfl

theorem Deployment.ofDict_error_dep (d : List (String × PyVal)) (e : PyError)
    (h : Deployment.ofDict d = Except.error e) : e = PyError.typeError := by
  unfold Deployment.ofDict at h
  split at h
  · simp at h
  · simpa using h.symm

theorem Media.ofDict_error_med (d : List (String × PyVal)) (e : PyError)
    (h : Media.ofDict d = Except.error e) : e = PyError.typeError := by
  unfold Media.ofDict at h
  split at h
  · simp at h
  · simpa using h.symm

theorem Observation.ofDict_error_obs (d : List (String × PyVal)) (e : PyError)
    (h : Observation.ofDict d = Except.error e) : e = PyError.typeError := by
  unfold Observation.ofDict at h
  split at h
  · simp at h
  · simpa using h.symm

theorem Deployment.ofDict_ok_dep (d : List (String × PyVal))
    (h : sameKeysB (d.map Prod.fst) Deployment.fieldNames = true) :
    ∃ r, Deployment.ofDict d = Except.ok r := by
  unfold Deployment.ofDict
  rw [h]
  exact ⟨_, rfl⟩

theorem Media.ofDict_ok_med (d : List (String × PyVal))
    (h : sameKeysB (d.map Prod.fst) Media.fieldNames = true) :
    ∃ r, Media.ofDict d = Except.ok r := by
  unfold Media.ofDict
  rw [h]
  exact ⟨_, rfl⟩

theorem Observation.ofDict_ok_obs (d : List (String × PyVal))
    (h : sameKeysB (d.map Prod.fst) Observation.fieldNames = true) :
    ∃ r, Observation.ofDict d = Except.ok r := by
  unfold Observation.ofDict
  rw [h]
  exact ⟨_, rfl⟩

/-- The keys of the `DictReader` row dictionary are exactly the header
names whenever the row is not longer than the header. -/
theorem mkRowDict_keys (header row : List String) (h : row.length ≤ header.length) :
    (mkRowDict header row).map Prod.fst = header := by
  unfold mkRowDict
  apply List.map_fst_zip
  simp only [List.length_append, List.length_map, List.length_replicate]
  omega

/-- Every value of the `DictReader` row dictionary is a raw cell string
or the `restval` padding `None`. -/
theorem mkRowDict_vals (header row : List String) :
    ∀ p ∈ mkRowDict header row, (∃ s, p.2 = PyVal.vstr s) ∨ p.2 = PyVal.vnone := by
  intro p hp
  unfold mkRowDict at hp
  have := List.of_mem_zip hp
  rcases List.mem_append.mp this.2 with hm | hm
  · rcases List.mem_map.mp hm with ⟨s, hs, hps⟩
    exact Or.inl ⟨s, hps.symm⟩
  · exact Or.inr (List.eq_of_mem_replicate hm)

/-- `readRow` fails with a `TypeError` when the row is longer than the
header or the header keys do not match the constructor parameters. -/
theorem readRow_typeError (ctor : List (String × PyVal) → Except PyError ρ)
    (names : List String) (header row : List String)
    (hbad : ∀ d, sameKeysB (d.map Prod.fst) names = false → ctor d = Except.error PyError.typeError)
    (hmismatch : row.length > header.length ∨ sameKeysB header names = false) :
    readRow ctor header row = Except.error PyError.typeError := by
  unfold readRow
  by_cases hlen : row.length > header.length
  · rw [if_pos hlen]
  · rw [if_neg hlen]
    have hkeys := mkRowDict_keys header row (by omega)
    rcases hmismatch with h | h
    · omega
    · exact hbad _ (by rw [hkeys]; exact h)

/-- Reading text whose first data row is non-blank and either longer
than the header or keyed by a header that does not match the expected
field set raises a `TypeError`. -/
theorem readCSVtext_mismatch (ctor : List (String × PyVal) → Except PyError ρ)
    (names : List String) (T : String) (hdr row : List String) (rest : List (List String))
    (hbad : ∀ d, sameKeysB (d.map Prod.fst) names = false → ctor d = Except.error PyError.typeError)
    (hparse : parseCSV (univNewlines (stripBOM T.data)) = hdr :: row :: rest)
    (hrow : row ≠ [])
    (hmismatch : row.length > hdr.length ∨ sameKeysB hdr names = false) :
    readCSVtext ctor T = Except.error PyError.typeError := by
  unfold readCSVtext
  rw [hparse]
  simp only
  rw [List.filter_cons, if_pos (by simpa using hrow)]
  exact exceptMapM_error_head _ row _ _ (readRow_typeError ctor names hdr row hbad hmismatch)

/-- All errors of `readCSVtext` are `TypeError`s raised by the
constructor call: nothing in `from_csv` raises a `ValueError` or a
`FormatError`. -/
theorem readCSVtext_error (ctor : List (String × PyVal) → Except PyError ρ)
    (T : String) (e : PyError)
    (hctor : ∀ d e2, ctor d = Except.error e2 → e2 = PyError.typeError)
    (h : readCSVtext ctor T = Except.error e) : e = PyError.typeError := by
  unfold readCSVtext at h
  revert h
  split
  · intro h
    simp at h
  · intro h
    obtain ⟨row, _, hrow⟩ := exceptMapM_error_mem _ _ e h
    unfold readRow at hrow
    revert hrow
    split
    · intro hrow
      simpa using hrow.symm
    · intro hrow
      exact hctor _ e hrow

/-- Values stored verbatim by pandas (`object` dtype): strings and
missing values, the only values `from_csv` ever produces. -/
def isStrOrNone : PyVal → Bool
  | PyVal.vstr _ => true
  | PyVal.vnone => true
  | _ => false

theorem colFloat64_false (rows : List (List PyVal)) (i : Nat)
    (hlen : ∀ r ∈ rows, i < r.length)
    (hvals : ∀ r ∈ rows, ∀ v ∈ r, isStrOrNone v = true) :
    colFloat64 rows i = false := by
  unfold colFloat64
  simp only
  have hmem : ∀ v ∈ rows.map (fun r => r.getD i PyVal.vnan), isStrOrNone v = true := by
    intro v hv
    rcases List.mem_map.mp hv with ⟨r, hr, rfl⟩
    have hi := hlen r hr
    rw [List.getD_eq_getElem r PyVal.vnan hi]
    exact hvals r hr _ (List.getElem_mem hi)
  by_cases hall : (rows.map (fun r => r.getD i PyVal.vnan)).all isNumericOrNone = true
  · have hnone : ∀ v ∈ rows.map (fun r => r.getD i PyVal.vnan), isRealNum v = false := by
      intro v hv
      have h1 := hmem v hv
      have h2 := List.all_eq_true.mp hall v hv
      cases v <;> simp_all [isStrOrNone, isNumericOrNone, isRealNum]
    have hany : (rows.map (fun r => r.getD i PyVal.vnan)).any isRealNum = false := by
      rw [Bool.eq_false_iff]
      simp only [ne_eq, List.any_eq_true, not_exists, not_and]
      intro v hv
      simp [hnone v hv]
    rw [hany]
    simp
  · have hfalse : (rows.map (fun r => r.getD i PyVal.vnan)).all isNumericOrNone = false :=
      Bool.eq_false_iff.mpr hall
    rw [hfalse]
    simp

theorem applyFlags_id (flags : List Bool) (vs : List PyVal)
    (h : ∀ f ∈ flags, f = false) : applyFlags flags vs = vs := by
  induction flags generalizing vs with
  | nil => rfl
  | cons f fs ih =>
    match vs with
    | [] => rfl
    | v :: vs =>
      rw [applyFlags, if_neg (by simp [h f (by simp)])]
      rw [ih vs (fun x hx => h x (by simp [hx]))]

theorem coerceRows_id (n : Nat) (rows : List (List PyVal))
    (hlen : ∀ r ∈ rows, r.length = n)
    (hvals : ∀ r ∈ rows, ∀ v ∈ r, isStrOrNone v = true) :
    coerceRows n rows = rows := by
  unfold coerceRows
  have hflags : ∀ f ∈ (List.range n).map (colFloat64 rows), f = false := by
    intro f hf
    rcases List.mem_map.mp hf with ⟨i, hi, rfl⟩
    exact colFloat64_false rows i
      (fun r hr => by rw [hlen r hr]; exact List.mem_range.mp hi) hvals
  calc rows.map (applyFlags ((List.range n).map (colFloat64 rows)))
      = rows.map id := List.map_congr_left (fun r hr => applyFlags_id _ r hflags)
    _ = rows := List.map_id rows

theorem Deployment.from_pandas_to_pandas_dep (rs : List Deployment)
    (h : ∀ r ∈ rs, ∀ v ∈ Deployment.toCells r, isStrOrNone v = true) :
    Deployment.from_pandas (Deployment.to_pandas rs) = Except.ok rs := by
  unfold Deployment.to_pandas Deployment.from_pandas dfOfRecords dfToRecords
  simp only
  rw [coerceRows_id _ _
    (fun row hrow => by rcases List.mem_map.mp hrow with ⟨r, hr, rfl⟩; rfl)
    (fun row hrow => by rcases List.mem_map.mp hrow with ⟨r, hr, rfl⟩; exact h r hr)]
  match rs with
  | [] => rfl
  | r :: rs' =>
    rw [if_neg (by simp)]
    rw [exceptMapM_map]
    have := exceptMapM_ok_map
      (fun x : Deployment => Deployment.ofDict (List.zip Deployment.fieldNames (Deployment.toCells x)))
      id (r :: rs') (fun x hx => Deployment.ofDict_asdict_dep x)
    simpa using this

theorem Media.from_pandas_to_pandas_med (rs : List Media)
    (h : ∀ r ∈ rs, ∀ v ∈ Media.toCells r, isStrOrNone v = true) :
    Media.from_pandas (Media.to_pandas rs) = Except.ok rs := by
  unfold Media.to_pandas Media.from_pandas dfOfRecords dfToRecords
  simp only
  rw [coerceRows_id _ _
    (fun row hrow => by rcases List.mem_map.mp hrow with ⟨r, hr, rfl⟩; rfl)
    (fun row hrow => by rcases List.mem_map.mp hrow with ⟨r, hr, rfl⟩; exact h r hr)]
  match rs with
  | [] => rfl
  | r :: rs' =>
    rw [if_neg (by simp)]
    rw [exceptMapM_map]
    have := exceptMapM_ok_map
      (fun x : Media => Media.ofDict (List.zip Media.fieldNames (Media.toCells x)))
      id (r :: rs') (fun x hx => Media.ofDict_asdict_med x)
    simpa using this

theorem Observation.from_pandas_to_pandas_obs (rs : List Observation)
    (h : ∀ r ∈ rs, ∀ v ∈ Observation.toCells r, isStrOrNone v = true) :
    Observation.from_pandas (Observation.to_pandas rs) = Except.ok rs := by
  unfold Observation.to_pandas Observation.from_pandas dfOfRecords dfToRecords
  simp only
  rw [coerceRows_id _ _
    (fun row hrow => by rcases List.mem_map.mp hrow with ⟨r, hr, rfl⟩; rfl)
    (fun row hrow => by rcases List.mem_map.mp hrow with ⟨r, hr, rfl⟩; exact h r hr)]
  match rs with
  | [] => rfl
  | r :: rs' =>
    rw [if_neg (by simp)]
    rw [exceptMapM_map]
    have := exceptMapM_ok_map
      (fun x : Observation => Observation.ofDict (List.zip Observation.fieldNames (Observation.toCells x)))
      id (r :: rs') (fun x hx => Observation.ofDict_asdict_obs x)
    simpa using this

theorem readCSVtext_ok_mem (ctor : List (String × PyVal) → Except PyError ρ)
    (T : String) (recs : List ρ) (h : readCSVtext ctor T = Except.ok recs) :
    ∀ r ∈ recs, ∃ d, ctor d = Except.ok r ∧
      ∀ p ∈ d, (∃ s, p.2 = PyVal.vstr s) ∨ p.2 = PyVal.vnone := by
  unfold readCSVtext at h
  revert h
  split
  · intro h
    simp only [Except.ok.injEq] at h
    subst h
    simp
  · next header rows hp =>
    intro h r hr
    obtain ⟨row, hrowmem, hrow⟩ := exceptMapM_ok_mem _ _ _ h r hr
    unfold readRow at hrow
    revert hrow
    split
    · intro hrow
      simp at hrow
    · intro hrow
      exact ⟨mkRowDict header row, hrow, mkRowDict_vals header row⟩

theorem Deployment.ofDict_cells_dep (d : List (String × PyVal)) (r : Deployment)
    (P : PyVal → Prop) (h : Deployment.ofDict d = Except.ok r)
    (hP : ∀ p ∈ d, P p.2) (hnone : P PyVal.vnone) :
    ∀ v ∈ Deployment.toCells r, P v := by
  unfold Deployment.ofDict at h
  split at h
  · simp only [Except.ok.injEq] at h
    subst h
    intro v hv
    simp only [Deployment.toCells, List.mem_cons, List.not_mem_nil, or_false] at hv
    rcases hv with rfl|rfl|rfl|rfl|rfl|rfl|rfl|rfl|rfl|rfl|rfl|rfl|rfl|rfl|rfl|rfl|rfl|rfl|rfl|rfl|rfl|rfl|rfl|rfl
    all_goals exact lookupD_prop P d _ hP hnone
  · simp at h

theorem Media.ofDict_cells_med (d : List (String × PyVal)) (r : Media)
    (P : PyVal → Prop) (h : Media.ofDict d = Except.ok r)
    (hP : ∀ p ∈ d, P p.2) (hnone : P PyVal.vnone) :
    ∀ v ∈ Media.toCells r, P v := by
  unfold Media.ofDict at h
  split at h
  · simp only [Except.ok.injEq] at h
    subst h
    intro v hv
    simp only [Media.toCells, List.mem_cons, List.not_mem_nil, or_false] at hv
    rcases hv with rfl|rfl|rfl|rfl|rfl|rfl|rfl|rfl|rfl|rfl|rfl
    all_goals exact lookupD_prop P d _ hP hnone
  · simp at h

theorem Observation.ofDict_cells_obs (d : List (String × PyVal)) (r : Observation)
    (P : PyVal → Prop) (h : Observation.ofDict d = Except.ok r)
    (hP : ∀ p ∈ d, P p.2) (hnone : P PyVal.vnone) :
    ∀ v ∈ Observation.toCells r, P v := by
  unfold Observation.ofDict at h
  split at h
  · simp only [Except.ok.injEq] at h
    subst h
    intro v hv
    simp only [Observation.toCells, List.mem_cons, List.not_mem_nil, or_false] at hv
    rcases hv with rfl|rfl|rfl|rfl|rfl|rfl|rfl|rfl|rfl|rfl|rfl|rfl|rfl|rfl|rfl|rfl|rfl|rfl|rfl|rfl|rfl|rfl|rfl|rfl|rfl|rfl|rfl|rfl
    all_goals exact lookupD_prop P d _ hP hnone
  · simp at h

theorem Deployment.readRow_ok_dep (row : List String)
    (h : row.length = Deployment.fieldNames.length) :
    ∃ r, readRow Deployment.ofDict Deployment.fieldNames row = Except.ok r := by
  unfold readRow
  rw [if_neg (by omega)]
  apply Deployment.ofDict_ok_dep
  rw [mkRowDict_keys _ _ (by omega)]
  decide

theorem Media.readRow_ok_med (row : List String)
    (h : row.length = Media.fieldNames.length) :
    ∃ r, readRow Media.ofDict Media.fieldNames row = Except.ok r := by
  unfold readRow
  rw [if_neg (by omega)]
  apply Media.ofDict_ok_med
  rw [mkRowDict_keys _ _ (by omega)]
  decide

theorem Observation.readRow_ok_obs (row : List String)
    (h : row.length = Observation.fieldNames.length) :
    ∃ r, readRow Observation.ofDict Observation.fieldNames row = Except.ok r := by
  unfold readRow
  rw [if_neg (by omega)]
  apply Observation.ofDict_ok_obs
  rw [mkRowDict_keys _ _ (by omega)]
  decide

theorem Deployment.to_csv_singleton_dep (d : Deployment) :
    Deployment.to_csv [d] = String.mk (encodeRow Deployment.fieldNames ++
      encodeRow ((Deployment.toCells d).map serializeCell)) := by
  unfold Deployment.to_csv writeCSVtext
  rw [List.map_cons, List.map_nil, List.map_cons, List.map_nil]
  rw [Deployment.dictWriterCells_asdict_dep]
  simp

theorem Media.to_csv_singleton_med (m : Media) :
    Media.to_csv [m] = String.mk (encodeRow Media.fieldNames ++
      encodeRow ((Media.toCells m).map serializeCell)) := by
  unfold Media.to_csv writeCSVtext
  rw [List.map_cons, List.map_nil, List.map_cons, List.map_nil]
  rw [Media.dictWriterCells_asdict_med]
  simp

theorem Observation.to_csv_singleton_obs (o : Observation) :
    Observation.to_csv [o] = String.mk (encodeRow Observation.fieldNames ++
      encodeRow ((Observation.toCells o).map serializeCell)) := by
  unfold Observation.to_csv writeCSVtext
  rw [List.map_cons, List.map_nil, List.map_cons, List.map_nil]
  rw [Observation.dictWriterCells_asdict_obs]
  simp

/-- The dataclass `__eq__` generated for `Deployment`: field-wise
Python equality. -/
def Deployment.eqPy (a b : Deployment) : Bool :=
  pyEq a.deploymentID b.deploymentID && pyEq a.locationID b.locationID &&
  pyEq a.locationName b.locationName && pyEq a.latitude b.latitude &&
  pyEq a.longitude b.longitude && pyEq a.coordinateUncertainty b.coordinateUncertainty &&
  pyEq a.deploymentStart b.deploymentStart && pyEq a.deploymentEnd b.deploymentEnd &&
  pyEq a.setupBy b.setupBy && pyEq a.cameraID b.cameraID &&
  pyEq a.cameraModel b.cameraModel && pyEq a.cameraDelay b.cameraDelay &&
  pyEq a.cameraHeight b.cameraHeight && pyEq a.cameraDepth b.cameraDepth &&
  pyEq a.cameraTilt b.cameraTilt && pyEq a.cameraHeading b.cameraHeading &&
  pyEq a.detectionDistance b.detectionDistance && pyEq a.timestampIssues b.timestampIssues &&
  pyEq a.baitUse b.baitUse && pyEq a.featureType b.featureType &&
  pyEq a.habitat b.habitat && pyEq a.deploymentGroups b.deploymentGroups &&
  pyEq a.deploymentTags b.deploymentTags && pyEq a.deploymentComments b.deploymentComments

theorem keys_zip_subset_cols (cols : List String) (row : List PyVal) :
    ∀ k ∈ (List.zip cols row).map Prod.fst, k ∈ cols := by
  intro k hk
  rcases List.mem_map.mp hk with ⟨p, hp, rfl⟩
  exact (List.of_mem_zip hp).1

theorem sameKeysB_false_of_missing (keys names : List String) (n : String)
    (hn : n ∈ names) (hmiss : n ∉ keys) : sameKeysB keys names = false := by
  unfold sameKeysB
  have h2 : names.all (fun k => keys.contains k) = false := by
    rw [Bool.eq_false_iff]
    simp only [ne_eq, List.all_eq_true, not_forall]
    refine ⟨n, hn, ?_⟩
    simpa [List.elem_iff] using hmiss
  rw [h2]
  simp

theorem Deployment.from_pandas_missing_dep (df : DataFrame)
    (hrows : df.rows ≠ []) (hmiss : "deploymentID" ∉ df.cols) :
    Deployment.from_pandas df = Except.error PyError.typeError := by
  unfold Deployment.from_pandas dfToRecords
  apply exceptMapM_error_all _ _ _ hrows
  intro row hrow
  apply Deployment.ofDict_guard_false_dep
  apply sameKeysB_false_of_missing _ _ "deploymentID" (by decide)
  intro hk
  exact hmiss (keys_zip_subset_cols df.cols row _ hk)

theorem Media.from_pandas_missing_med (df : DataFrame)
    (hrows : df.rows ≠ []) (hmiss : "mediaID" ∉ df.cols) :
    Media.from_pandas df = Except.error PyError.typeError := by
  unfold Media.from_pandas dfToRecords
  apply exceptMapM_error_all _ _ _ hrows
  intro row hrow
  apply Media.ofDict_guard_false_med
  apply sameKeysB_false_of_missing _ _ "mediaID" (by decide)
  intro hk
  exact hmiss (keys_zip_subset_cols df.cols row _ hk)

theorem Observation.from_pandas_missing_obs (df : DataFrame)
    (hrows : df.rows ≠ []) (hmiss : "observationID" ∉ df.cols) :
    Observation.from_pandas df = Except.error PyError.typeError := by
  unfold Observation.from_pandas dfToRecords
  apply exceptMapM_error_all _ _ _ hrows
  intro row hrow
  apply Observation.ofDict_guard_false_obs
  apply sameKeysB_false_of_missing _ _ "observationID" (by decide)
  intro hk
  exact hmiss (keys_zip_subset_cols df.cols row _ hk)

theorem exceptMapM_singleton (f : α → Except PyError β) (a : α) (b : β)
    (h : f a = Except.ok b) : exceptMapM f [a] = Except.ok [b] := by
  simp [exceptMapM, h]

/-- Substring test used to state facts about emitted text. -/
def hasSub : List Char → List Char → Bool
  | hay, needle =>
    if needle.isPrefixOf hay then true
    else
      match hay with
      | [] => false
      | _ :: t => hasSub t needle

/-! ## Concrete records and inputs used in the claim instances below -/

/-- A deployment whose fields hold the raw strings `from_csv` would
produce, one of them empty and one requiring CSV quoting. -/
def depW : Deployment :=
  ⟨PyVal.vstr "dep1", PyVal.vstr "loc1", PyVal.vstr "Field, Station",
   PyVal.vstr "1.5", PyVal.vstr "2.5", PyVal.vnone,
   PyVal.vstr "2020-01-01T00:00:00Z", PyVal.vstr "2020-02-01T00:00:00Z",
   PyVal.vnone, PyVal.vnone, PyVal.vnone, PyVal.vnone, PyVal.vnone,
   PyVal.vnone, PyVal.vnone, PyVal.vnone, PyVal.vnone, PyVal.vnone,
   PyVal.vnone, PyVal.vnone, PyVal.vstr "forest", PyVal.vnone,
   PyVal.vnone, PyVal.vstr "note"⟩

/-- A deployment one of whose field values contains a carriage return. -/
def depCR : Deployment :=
  ⟨PyVal.vstr "d1", PyVal.vstr "l1", PyVal.vstr "n", PyVal.vstr "1.5",
   PyVal.vstr "2.5", PyVal.vstr "", PyVal.vstr "s", PyVal.vstr "e",
   PyVal.vstr "", PyVal.vstr "", PyVal.vstr "", PyVal.vstr "",
   PyVal.vstr "", PyVal.vstr "", PyVal.vstr "", PyVal.vstr "",
   PyVal.vstr "", PyVal.vstr "", PyVal.vstr "", PyVal.vstr "",
   PyVal.vstr "", PyVal.vstr "", PyVal.vstr "", PyVal.vstr "a\rb"⟩

/-- A media record with string fields only. -/
def medW : Media :=
  ⟨PyVal.vstr "m1", PyVal.vstr "dep1", PyVal.vstr "activityDetection",
   PyVal.vstr "2020-01-05T10:00:00Z", PyVal.vstr "img/m1.jpg",
   PyVal.vstr "", PyVal.vnone, PyVal.vstr "image/jpeg", PyVal.vnone,
   PyVal.vnone, PyVal.vnone⟩

/-- A media record whose `filePublic` holds the Python boolean `True`. -/
def medTrue : Media :=
  ⟨PyVal.vstr "m1", PyVal.vstr "dep1", PyVal.vnone,
   PyVal.vstr "2020-01-05T10:00:00Z", PyVal.vstr "img/m1.jpg",
   PyVal.vbool true, PyVal.vnone, PyVal.vstr "image/jpeg", PyVal.vnone,
   PyVal.vnone, PyVal.vnone⟩

/-- An observation with string fields only. -/
def obsW : Observation :=
  ⟨PyVal.vstr "o1", PyVal.vstr "dep1", PyVal.vstr "m1", PyVal.vnone,
   PyVal.vstr "2020-01-05T10:00:00Z", PyVal.vstr "2020-01-05T10:01:00Z",
   PyVal.vstr "media", PyVal.vstr "animal", PyVal.vnone,
   PyVal.vstr "Vulpes vulpes", PyVal.vstr "1", PyVal.vnone, PyVal.vnone,
   PyVal.vnone, PyVal.vnone, PyVal.vnone, PyVal.vnone, PyVal.vnone,
   PyVal.vnone, PyVal.vnone, PyVal.vnone, PyVal.vnone, PyVal.vnone,
   PyVal.vnone, PyVal.vnone, PyVal.vnone, PyVal.vnone, PyVal.vnone⟩

/-- A deployment whose fields are all empty strings (base for the
pandas counterexample). -/
def depBlank : Deployment :=
  ⟨PyVal.vstr "", PyVal.vstr "", PyVal.vstr "", PyVal.vstr "",
   PyVal.vstr "", PyVal.vstr "", PyVal.vstr "", PyVal.vstr "",
   PyVal.vstr "", PyVal.vstr "", PyVal.vstr "", PyVal.vstr "",
   PyVal.vstr "", PyVal.vstr "", PyVal.vstr "", PyVal.vstr "",
   PyVal.vstr "", PyVal.vstr "", PyVal.vstr "", PyVal.vstr "",
   PyVal.vstr "", PyVal.vstr "", PyVal.vstr "", PyVal.vstr ""⟩

/-- `depBlank` with an integer `cameraDelay`. -/
def depInt : Deployment := { depBlank with cameraDelay := PyVal.vint 5 }

/-- `depBlank` with a missing `cameraDelay`. -/
def depNone : Deployment := { depBlank with cameraDelay := PyVal.vnone }

/-- What pandas turns `depInt` into: the int widened to a float. -/
def depIntFloat : Deployment := { depBlank with cameraDelay := PyVal.vfloat 5 }

/-- What pandas turns `depNone` into: the missing value becomes `NaN`. -/
def depNoneNan : Deployment := { depBlank with cameraDelay := PyVal.vnan }

/-- The deployment header line. -/
def depHeader : String := String.intercalate "," Deployment.fieldNames

/-- Deployment CSV text whose `latitude` cell is not numeric and whose
`featureType` cell is outside the declared vocabulary. -/
def c2text : String :=
  depHeader ++ "\n" ++
    String.intercalate ","
      (["d1", "loc", "name", "not-a-number", "2.5", "", "s", "e"] ++
        List.replicate 11 "" ++ ["bogusFeature", "", "", "", "c"]) ++ "\n"

/-- The record `from_csv` builds from `c2text`: every cell bound as its
raw string. -/
def c2rec : Deployment :=
  ⟨PyVal.vstr "d1", PyVal.vstr "loc", PyVal.vstr "name",
   PyVal.vstr "not-a-number", PyVal.vstr "2.5", PyVal.vstr "",
   PyVal.vstr "s", PyVal.vstr "e", PyVal.vstr "", PyVal.vstr "",
   PyVal.vstr "", PyVal.vstr "", PyVal.vstr "", PyVal.vstr "",
   PyVal.vstr "", PyVal.vstr "", PyVal.vstr "", PyVal.vstr "",
   PyVal.vstr "", PyVal.vstr "bogusFeature", PyVal.vstr "",
   PyVal.vstr "", PyVal.vstr "", PyVal.vstr "c"⟩

/-- Deployment CSV text whose single data row has one cell instead of
twenty-four. -/
def c3shortText : String := depHeader ++ "\nonlycell\n"

/-- The record `from_csv` silently builds from the short row: the one
cell bound as a string, all other fields `None`. -/
def c3shortRec : Deployment :=
  ⟨PyVal.vstr "onlycell", PyVal.vnone, PyVal.vnone, PyVal.vnone,
   PyVal.vnone, PyVal.vnone, PyVal.vnone, PyVal.vnone, PyVal.vnone,
   PyVal.vnone, PyVal.vnone, PyVal.vnone, PyVal.vnone, PyVal.vnone,
   PyVal.vnone, PyVal.vnone, PyVal.vnone, PyVal.vnone, PyVal.vnone,
   PyVal.vnone, PyVal.vnone, PyVal.vnone, PyVal.vnone, PyVal.vnone⟩

/-- Text whose header has nothing to do with the deployment schema. -/
def c2mismText : String := "a,b\nx,y\n"

/-- A table missing the required `deploymentID` column. -/
def dfMissing : DataFrame := ⟨["locationID"], [[PyVal.vstr "x"]]⟩

/-- Another table with an unrelated column. -/
def dfUnrelated : DataFrame := ⟨["x"], [[PyVal.vstr "y"]]⟩

/-! ## The claims -/

/-- C10: the `Deployment` class defined at the package root duplicates
the deployment schema with field `habitatType` in place of `habitat`,
and its `from_csv` and `to_csv` raise `NotImplementedError` on every
call, so this duplicate can never read or write CSV text. -/
theorem c10_root_duplicate :
    PackageRoot.Deployment.fieldNames =
      Deployment.fieldNames.map (fun n => if n = "habitat" then "habitatType" else n) ∧
    PackageRoot.Deployment.from_csv = Except.error PyError.notImplementedError ∧
    PackageRoot.Deployment.to_csv = Except.error PyError.notImplementedError :=
  ⟨by decide, rfl, rfl⟩

/-- C5: for every record kind, `to_csv` emits exactly one header row
holding all field names in declared schema order, then one row per
record in input order, each row being the records' cells in schema
order with `None` serialized as the empty string. -/
theorem c5_to_csv_layout :
    (∀ rs : List Deployment, Deployment.to_csv rs =
      String.mk (encodeRow Deployment.fieldNames ++
        (rs.map (fun r => encodeRow ((Deployment.toCells r).map serializeCell))).flatten)) ∧
    (∀ rs : List Media, Media.to_csv rs =
      String.mk (encodeRow Media.fieldNames ++
        (rs.map (fun r => encodeRow ((Media.toCells r).map serializeCell))).flatten)) ∧
    (∀ rs : List Observation, Observation.to_csv rs =
      String.mk (encodeRow Observation.fieldNames ++
        (rs.map (fun r => encodeRow ((Observation.toCells r).map serializeCell))).flatten)) ∧
    serializeCell PyVal.vnone = "" := by
  refine ⟨?_, ?_, ?_, rfl⟩
  · intro rs
    unfold Deployment.to_csv writeCSVtext
    refine congrArg String.mk ?_
    refine congrArg (fun l => encodeRow Deployment.fieldNames ++ List.flatten l) ?_
    rw [List.map_map]
    exact List.map_congr_left
      (fun r hr => congrArg encodeRow (Deployment.dictWriterCells_asdict_dep r))
  · intro rs
    unfold Media.to_csv writeCSVtext
    refine congrArg String.mk ?_
    refine congrArg (fun l => encodeRow Media.fieldNames ++ List.flatten l) ?_
    rw [List.map_map]
    exact List.map_congr_left
      (fun r hr => congrArg encodeRow (Media.dictWriterCells_asdict_med r))
  · intro rs
    unfold Observation.to_csv writeCSVtext
    refine congrArg String.mk ?_
    refine congrArg (fun l => encodeRow Observation.fieldNames ++ List.flatten l) ?_
    rw [List.map_map]
    exact List.map_congr_left
      (fun r hr => congrArg encodeRow (Observation.dictWriterCells_asdict_obs r))

/-- C2 (amended): `from_csv` performs no value coercion at all, so the
only exception it can raise is the `TypeError` of a keyword mismatch;
in particular no input ever raises a `ValueError`. -/
theorem c2_no_valueerror :
    (∀ (T : String) (e : PyError),
      Deployment.from_csv T = Except.error e → e = PyError.typeError) ∧
    (∀ (T : String) (e : PyError),
      Media.from_csv T = Except.error e → e = PyError.typeError) ∧
    (∀ (T : String) (e : PyError),
      Observation.from_csv T = Except.error e → e = PyError.typeError) := by
  refine ⟨?_, ?_, ?_⟩
  · intro T e h
    exact readCSVtext_error Deployment.ofDict T e Deployment.ofDict_error_dep h
  · intro T e h
    exact readCSVtext_error Media.ofDict T e Media.ofDict_error_med h
  · intro T e h
    exact readCSVtext_error Observation.ofDict T e Observation.ofDict_error_obs h

/-- C2 witness: on a header that matches no deployment field the read
fails, and the theorem pins the exception kind. -/
theorem c2_no_valueerror_witness : PyError.typeError = PyError.typeError :=
  c2_no_valueerror.1 c2mismText PyError.typeError (by decide)

set_option maxRecDepth 40000 in
/-- C2 counterexample: a numeric field holding non-numeric text and an
enum field holding an out-of-vocabulary string do not raise a
`ValueError`; the read succeeds and binds the raw strings. -/
theorem c2_counterexample :
    Deployment.from_csv c2text ≠ Except.error PyError.valueError ∧
    Deployment.from_csv c2text = Except.ok [c2rec] := by
  constructor
  · decide
  · decide

/-- C8 (amended): `from_pandas` on a table that lacks the column of the
record kind's required ID field fails, but with a `TypeError` from the
constructor call, not a `FormatError`. -/
theorem c8_missing_column :
    (∀ df : DataFrame, df.rows ≠ [] → "deploymentID" ∉ df.cols →
      Deployment.from_pandas df = Except.error PyError.typeError) ∧
    (∀ df : DataFrame, df.rows ≠ [] → "mediaID" ∉ df.cols →
      Media.from_pandas df = Except.error PyError.typeError) ∧
    (∀ df : DataFrame, df.rows ≠ [] → "observationID" ∉ df.cols →
      Observation.from_pandas df = Except.error PyError.typeError) :=
  ⟨Deployment.from_pandas_missing_dep, Media.from_pandas_missing_med, Observation.from_pandas_missing_obs⟩

/-- C8 witness: a one-column, one-row table without `deploymentID`. -/
theorem c8_missing_column_witness :
    Deployment.from_pandas dfUnrelated = Except.error PyError.typeError :=
  c8_missing_column.1 dfUnrelated (by decide) (by decide)

/-- C8 counterexample: the failure on a missing required column is a
`TypeError`, not the `FormatError` the claim names (no `FormatError`
exists in the code). -/
theorem c8_counterexample :
    Deployment.from_pandas dfMissing ≠ Except.error PyError.formatError ∧
    Deployment.from_pandas dfMissing = Except.error PyError.typeError := by
  constructor
  · decide
  · decide

/-- C1 (amended): for every record kind, writing records none of whose
serialized field values contains a carriage return, reading the text
back with `from_csv`, and writing the result again reproduces the text
byte for byte (header order and CRLF line endings included).  The
carriage-return restriction is forced: `from_csv` reads in
universal-newline mode, which rewrites a CR inside a quoted cell. -/
theorem c1_csv_roundtrip :
    (∀ rs : List Deployment,
      (∀ r ∈ rs, ∀ v ∈ Deployment.toCells r, ∀ c ∈ (serializeCell v).data, c ≠ '\r') →
      (Deployment.from_csv (Deployment.to_csv rs)).map Deployment.to_csv =
        Except.ok (Deployment.to_csv rs)) ∧
    (∀ rs : List Media,
      (∀ r ∈ rs, ∀ v ∈ Media.toCells r, ∀ c ∈ (serializeCell v).data, c ≠ '\r') →
      (Media.from_csv (Media.to_csv rs)).map Media.to_csv =
        Except.ok (Media.to_csv rs)) ∧
    (∀ rs : List Observation,
      (∀ r ∈ rs, ∀ v ∈ Observation.toCells r, ∀ c ∈ (serializeCell v).data, c ≠ '\r') →
      (Observation.from_csv (Observation.to_csv rs)).map Observation.to_csv =
        Except.ok (Observation.to_csv rs)) := by
  refine ⟨?_, ?_, ?_⟩
  · intro rs hcr
    rw [Deployment.from_csv_to_csv_dep rs hcr]
    simp only [Except.map]
    rw [Deployment.to_csv_reread_dep rs]
  · intro rs hcr
    rw [Media.from_csv_to_csv_med rs hcr]
    simp only [Except.map]
    rw [Media.to_csv_reread_med rs]
  · intro rs hcr
    rw [Observation.from_csv_to_csv_obs rs hcr]
    simp only [Except.map]
    rw [Observation.to_csv_reread_obs rs]

set_option maxRecDepth 40000 in
/-- C1 witness: a concrete deployment with an empty cell, a quoted cell
and `None` cells round-trips byte for byte. -/
theorem c1_csv_roundtrip_witness :
    (Deployment.from_csv (Deployment.to_csv [depW])).map Deployment.to_csv =
      Except.ok (Deployment.to_csv [depW]) :=
  c1_csv_roundtrip.1 [depW] (by decide)

set_option maxRecDepth 100000 in
/-- C1 counterexample: a field value containing a carriage return is
written as valid quoted CSV, but reading it back and re-writing does
not reproduce the text (the CR has become an LF). -/
theorem c1_csv_roundtrip_counterexample :
    (Deployment.from_csv (Deployment.to_csv [depCR])).map Deployment.to_csv ≠
      Except.ok (Deployment.to_csv [depCR]) := by
  decide

/-- C4 (amended): for every record kind, the pandas round trip
`from_pandas(to_pandas(R))` restores `R` exactly (the empty sequence
included) whenever every field value is a string or `None` — which is
what every record read by `from_csv` holds.  The restriction is
forced: a column mixing ints with `None` is stored as float64, so
`None` comes back as `NaN` and ints come back as floats. -/
theorem c4_table_roundtrip :
    (∀ rs : List Deployment,
      (∀ r ∈ rs, ∀ v ∈ Deployment.toCells r, isStrOrNone v = true) →
      Deployment.from_pandas (Deployment.to_pandas rs) = Except.ok rs) ∧
    (∀ rs : List Media,
      (∀ r ∈ rs, ∀ v ∈ Media.toCells r, isStrOrNone v = true) →
      Media.from_pandas (Media.to_pandas rs) = Except.ok rs) ∧
    (∀ rs : List Observation,
      (∀ r ∈ rs, ∀ v ∈ Observation.toCells r, isStrOrNone v = true) →
      Observation.from_pandas (Observation.to_pandas rs) = Except.ok rs) :=
  ⟨Deployment.from_pandas_to_pandas_dep, Media.from_pandas_to_pandas_med,
   Observation.from_pandas_to_pandas_obs⟩

/-- C4 witness: a two-record string-valued sequence and the empty
sequence both round-trip through the table. -/
theorem c4_table_roundtrip_witness :
    Deployment.from_pandas (Deployment.to_pandas [depW, c3shortRec]) =
      Except.ok [depW, c3shortRec] :=
  c4_table_roundtrip.1 [depW, c3shortRec] (by decide)

set_option maxRecDepth 40000 in
/-- C4 counterexample: a sequence whose `cameraDelay` column mixes the
int `5` with `None` does not come back equal: pandas stores the column
as float64, so the int returns as the float `5.0` and the `None` as
`NaN`, and `NaN` is unequal to `None` under Python equality too. -/
theorem c4_table_roundtrip_counterexample :
    Deployment.from_pandas (Deployment.to_pandas [depInt, depNone]) ≠
      Except.ok [depInt, depNone] ∧
    Deployment.from_pandas (Deployment.to_pandas [depInt, depNone]) =
      Except.ok [depIntFloat, depNoneNan] ∧
    Deployment.eqPy depNoneNan depNone = false := by
  refine ⟨?_, ?_, ?_⟩
  · decide
  · decide
  · decide

/-- C6 (amended): a boolean field value is serialized by `to_csv` as
the capitalized Python form `"True"`/`"False"` (the `str()` of a
`bool`), not the lowercase `"true"`/`"false"` of the claim.  Stated
for `Media.filePublic` (writer cell 5) and
`Deployment.timestampIssues` (writer cell 17). -/
theorem c6_bool_serialization :
    (∀ (m : Media) (b : Bool), m.filePublic = PyVal.vbool b →
      Media.to_csv [m] = String.mk (encodeRow Media.fieldNames ++
        encodeRow ((Media.toCells m).map serializeCell)) ∧
      ((Media.toCells m).map serializeCell).get? 5 =
        some (if b then "True" else "False")) ∧
    (∀ (d : Deployment) (b : Bool), d.timestampIssues = PyVal.vbool b →
      Deployment.to_csv [d] = String.mk (encodeRow Deployment.fieldNames ++
        encodeRow ((Deployment.toCells d).map serializeCell)) ∧
      ((Deployment.toCells d).map serializeCell).get? 17 =
        some (if b then "True" else "False")) := by
  constructor
  · intro m b hb
    refine ⟨Media.to_csv_singleton_med m, ?_⟩
    simp only [Media.toCells]
    rw [hb]
    cases b <;> rfl
  · intro d b hb
    refine ⟨Deployment.to_csv_singleton_dep d, ?_⟩
    simp only [Deployment.toCells]
    rw [hb]
    cases b <;> rfl

/-- C6 witness: a concrete media record with `filePublic = True`. -/
theorem c6_bool_serialization_witness :
    Media.to_csv [medTrue] = String.mk (encodeRow Media.fieldNames ++
      encodeRow ((Media.toCells medTrue).map serializeCell)) ∧
    ((Media.toCells medTrue).map serializeCell).get? 5 = some "True" :=
  c6_bool_serialization.1 medTrue true rfl

set_option maxRecDepth 40000 in
/-- C6 counterexample: the text written for `medTrue` contains the
capitalized `True` and nowhere the lowercase `true` the claim
promises. -/
theorem c6_bool_serialization_counterexample :
    hasSub (Media.to_csv [medTrue]).data "True".data = true ∧
    hasSub (Media.to_csv [medTrue]).data "true".data = false := by
  constructor
  · decide
  · decide

/-- C3 (amended): when the parsed header does not match the expected
field set, or a data row has more cells than the header, `from_csv`
fails — but with the `TypeError` of the keyword-argument mismatch, not
a `FormatError` (no `FormatError` exists in the code); and a data row
with fewer cells than the header does not fail at all: it is silently
padded with `None`. -/
theorem c3_header_and_field_count :
    (∀ (T : String) (hdr row : List String) (rest : List (List String)),
      parseCSV (univNewlines (stripBOM T.data)) = hdr :: row :: rest → row ≠ [] →
      (row.length > hdr.length ∨ sameKeysB hdr Deployment.fieldNames = false) →
      Deployment.from_csv T = Except.error PyError.typeError) ∧
    (∀ (T : String) (hdr row : List String) (rest : List (List String)),
      parseCSV (univNewlines (stripBOM T.data)) = hdr :: row :: rest → row ≠ [] →
      (row.length > hdr.length ∨ sameKeysB hdr Media.fieldNames = false) →
      Media.from_csv T = Except.error PyError.typeError) ∧
    (∀ (T : String) (hdr row : List String) (rest : List (List String)),
      parseCSV (univNewlines (stripBOM T.data)) = hdr :: row :: rest → row ≠ [] →
      (row.length > hdr.length ∨ sameKeysB hdr Observation.fieldNames = false) →
      Observation.from_csv T = Except.error PyError.typeError) ∧
    (∀ (T : String) (row : List String),
      parseCSV (univNewlines (stripBOM T.data)) = [Deployment.fieldNames, row] →
      row ≠ [] → row.length ≤ Deployment.fieldNames.length →
      ∃ d, Deployment.from_csv T = Except.ok [d]) := by
  refine ⟨?_, ?_, ?_, ?_⟩
  · intro T hdr row rest hp hrow hbad
    exact readCSVtext_mismatch Deployment.ofDict Deployment.fieldNames T hdr row rest
      Deployment.ofDict_guard_false_dep hp hrow hbad
  · intro T hdr row rest hp hrow hbad
    exact readCSVtext_mismatch Media.ofDict Media.fieldNames T hdr row rest
      Media.ofDict_guard_false_med hp hrow hbad
  · intro T hdr row rest hp hrow hbad
    exact readCSVtext_mismatch Observation.ofDict Observation.fieldNames T hdr row rest
      Observation.ofDict_guard_false_obs hp hrow hbad
  · intro T row hp hrow hlen
    have hred : Deployment.from_csv T =
        exceptMapM (readRow Deployment.ofDict Deployment.fieldNames)
          ([row].filter (fun r => !r.isEmpty)) := by
      unfold Deployment.from_csv readCSVtext
      rw [hp]
    rw [hred, List.filter_cons, if_pos (by simpa using hrow), List.filter_nil]
    have hok : ∃ d, readRow Deployment.ofDict Deployment.fieldNames row = Except.ok d := by
      unfold readRow
      rw [if_neg (by omega)]
      apply Deployment.ofDict_ok_dep
      rw [mkRowDict_keys _ _ hlen]
      decide
    obtain ⟨d, hd⟩ := hok
    exact ⟨d, exceptMapM_singleton _ row d hd⟩

set_option maxRecDepth 40000 in
/-- C3 witness: a two-column header that matches no deployment field
raises `TypeError`. -/
theorem c3_header_and_field_count_witness :
    Deployment.from_csv c2mismText = Except.error PyError.typeError :=
  c3_header_and_field_count.1 c2mismText ["a", "b"] ["x", "y"] []
    (by decide) (by decide) (by decide)

set_option maxRecDepth 40000 in
/-- C3 counterexample: a data row with a single cell (instead of the
twenty-four of the header) does not raise a `FormatError` — `from_csv`
returns a record whose remaining fields are `None`. -/
theorem c3_header_and_field_count_counterexample :
    Deployment.from_csv c3shortText ≠ Except.error PyError.formatError ∧
    Deployment.from_csv c3shortText = Except.ok [c3shortRec] := by
  constructor
  · decide
  · decide

/-- C7: for every record kind, on input whose header row is the field
list and whose data rows all have the full field count, `from_csv`
returns exactly one record per data row, in input row order; a file
with the header row only yields the empty sequence. -/
theorem c7_row_correspondence :
    (∀ (T : String) (data : List (List String)),
      parseCSV (univNewlines (stripBOM T.data)) = Deployment.fieldNames :: data →
      (∀ row ∈ data, row.length = Deployment.fieldNames.length) →
      ∃ recs, Deployment.from_csv T = Except.ok recs ∧ recs.length = data.length ∧
        ∀ i (h1 : i < data.length) (h2 : i < recs.length),
          readRow Deployment.ofDict Deployment.fieldNames (data.get ⟨i, h1⟩) =
            Except.ok (recs.get ⟨i, h2⟩)) ∧
    (∀ (T : String) (data : List (List String)),
      parseCSV (univNewlines (stripBOM T.data)) = Media.fieldNames :: data →
      (∀ row ∈ data, row.length = Media.fieldNames.length) →
      ∃ recs, Media.from_csv T = Except.ok recs ∧ recs.length = data.length ∧
        ∀ i (h1 : i < data.length) (h2 : i < recs.length),
          readRow Media.ofDict Media.fieldNames (data.get ⟨i, h1⟩) =
            Except.ok (recs.get ⟨i, h2⟩)) ∧
    (∀ (T : String) (data : List (List String)),
      parseCSV (univNewlines (stripBOM T.data)) = Observation.fieldNames :: data →
      (∀ row ∈ data, row.length = Observation.fieldNames.length) →
      ∃ recs, Observation.from_csv T = Except.ok recs ∧ recs.length = data.length ∧
        ∀ i (h1 : i < data.length) (h2 : i < recs.length),
          readRow Observation.ofDict Observation.fieldNames (data.get ⟨i, h1⟩) =
            Except.ok (recs.get ⟨i, h2⟩)) := by
  refine ⟨?_, ?_, ?_⟩
  · intro T data hp hlen
    have hred : Deployment.from_csv T =
        exceptMapM (readRow Deployment.ofDict Deployment.fieldNames)
          (data.filter (fun r => !r.isEmpty)) := by
      unfold Deployment.from_csv readCSVtext
      rw [hp]
    have hfil : data.filter (fun r => !r.isEmpty) = data := by
      apply filter_nonempty_eq_self
      intro r hr hnil
      have := hlen r hr
      rw [hnil] at this
      simp [Deployment.fieldNames] at this
    rw [hfil] at hred
    obtain ⟨recs, hok, hl, hget⟩ := exceptMapM_ok_exists _ data
      (fun row hrow => Deployment.readRow_ok_dep row (hlen row hrow))
    exact ⟨recs, hred.trans hok, hl, hget⟩
  · intro T data hp hlen
    have hred : Media.from_csv T =
        exceptMapM (readRow Media.ofDict Media.fieldNames)
          (data.filter (fun r => !r.isEmpty)) := by
      unfold Media.from_csv readCSVtext
      rw [hp]
    have hfil : data.filter (fun r => !r.isEmpty) = data := by
      apply filter_nonempty_eq_self
      intro r hr hnil
      have := hlen r hr
      rw [hnil] at this
      simp [Media.fieldNames] at this
    rw [hfil] at hred
    obtain ⟨recs, hok, hl, hget⟩ := exceptMapM_ok_exists _ data
      (fun row hrow => Media.readRow_ok_med row (hlen row hrow))
    exact ⟨recs, hred.trans hok, hl, hget⟩
  · intro T data hp hlen
    have hred : Observation.from_csv T =
        exceptMapM (readRow Observation.ofDict Observation.fieldNames)
          (data.filter (fun r => !r.isEmpty)) := by
      unfold Observation.from_csv readCSVtext
      rw [hp]
    have hfil : data.filter (fun r => !r.isEmpty) = data := by
      apply filter_nonempty_eq_self
      intro r hr hnil
      have := hlen r hr
      rw [hnil] at this
      simp [Observation.fieldNames] at this
    rw [hfil] at hred
    obtain ⟨recs, hok, hl, hget⟩ := exceptMapM_ok_exists _ data
      (fun row hrow => Observation.readRow_ok_obs row (hlen row hrow))
    exact ⟨recs, hred.trans hok, hl, hget⟩

set_option maxRecDepth 40000 in
/-- C7 witness: a header-only deployment file yields the empty
sequence with as many records as data rows, namely none. -/
theorem c7_row_correspondence_witness :
    ∃ recs, Deployment.from_csv (depHeader ++ "\n") = Except.ok recs ∧
      recs.length = ([] : List (List String)).length ∧
      ∀ i (h1 : i < ([] : List (List String)).length) (h2 : i < recs.length),
        readRow Deployment.ofDict Deployment.fieldNames (([] : List (List String)).get ⟨i, h1⟩) =
          Except.ok (recs.get ⟨i, h2⟩) :=
  c7_row_correspondence.1 (depHeader ++ "\n") [] (by decide) (by decide)

/-- C9 (implicit): every record `from_csv` returns binds each field to
the raw CSV cell text as a string, or to `None` for a missing trailing
cell; no field is coerced to a numeric, boolean or enumeration type. -/
theorem c9_raw_strings :
    (∀ (T : String) (recs : List Deployment), Deployment.from_csv T = Except.ok recs →
      ∀ r ∈ recs, ∀ v ∈ Deployment.toCells r,
        (∃ s, v = PyVal.vstr s) ∨ v = PyVal.vnone) ∧
    (∀ (T : String) (recs : List Media), Media.from_csv T = Except.ok recs →
      ∀ r ∈ recs, ∀ v ∈ Media.toCells r,
        (∃ s, v = PyVal.vstr s) ∨ v = PyVal.vnone) ∧
    (∀ (T : String) (recs : List Observation), Observation.from_csv T = Except.ok recs →
      ∀ r ∈ recs, ∀ v ∈ Observation.toCells r,
        (∃ s, v = PyVal.vstr s) ∨ v = PyVal.vnone) := by
  refine ⟨?_, ?_, ?_⟩
  · intro T recs h r hr
    obtain ⟨d, hd, hvals⟩ := readCSVtext_ok_mem Deployment.ofDict T recs h r hr
    exact Deployment.ofDict_cells_dep d r _ hd
      (fun p hp => by
        rcases hvals p hp with ⟨s, hs⟩ | hs
        · exact Or.inl ⟨s, hs⟩
        · exact Or.inr hs)
      (Or.inr rfl)
  · intro T recs h r hr
    obtain ⟨d, hd, hvals⟩ := readCSVtext_ok_mem Media.ofDict T recs h r hr
    exact Media.ofDict_cells_med d r _ hd
      (fun p hp => by
        rcases hvals p hp with ⟨s, hs⟩ | hs
        · exact Or.inl ⟨s, hs⟩
        · exact Or.inr hs)
      (Or.inr rfl)
  · intro T recs h r hr
    obtain ⟨d, hd, hvals⟩ := readCSVtext_ok_mem Observation.ofDict T recs h r hr
    exact Observation.ofDict_cells_obs d r _ hd
      (fun p hp => by
        rcases hvals p hp with ⟨s, hs⟩ | hs
        · exact Or.inl ⟨s, hs⟩
        · exact Or.inr hs)
      (Or.inr rfl)

set_option maxRecDepth 40000 in
/-- C9 witness: on the short-row file the one present cell is bound as
a raw string and a missing trailing cell is bound as `None`. -/
theorem c9_raw_strings_witness :
    (∃ s, PyVal.vnone = PyVal.vstr s) ∨ PyVal.vnone = PyVal.vnone :=
  c9_raw_strings.1 c3shortText [c3shortRec] (by decide) c3shortRec (by decide)
    PyVal.vnone (by decide)
